import Mathlib

/-!
Verification development for the support-portal backend.

The definitions below are shallow embeddings of the Python sources under
src/support-portal/backend: the SQL tables become Lean lists of rows, each
repository method becomes a pure function on those lists, and the
nondeterministic inputs of the code (uuid4 tokens, datetime.now readings)
become explicit parameters.  Namespaces mirror the source files:
`Shared` embeds shared.py, `App` embeds app.py, `AppNew` embeds app_new.py,
`Chalice` embeds chalicelib/db.py, chalicelib/storage.py and
chalicelib/schemas.py, `SimpleApp` embeds simple_app.py.
-/

namespace SupportPortal

/-! ## Python string helpers -/

/-- Python truthiness of a string: non-empty strings are truthy. -/
def strTruthy (s : String) : Bool := s ≠ ""

/-- Python truthiness of an optional string (None and the empty string are falsy). -/
def optTruthy : Option String → Bool
  | none => false
  | some s => strTruthy s

/-- Whether a character list contains a comma. -/
def containsCommaL : List Char → Bool
  | [] => false
  | c :: r => if c = ',' then true else containsCommaL r

/-- ASCII lowercase of one character (what Python str.lower does on the ASCII
range relevant to the priority values). -/
def asciiLower (c : Char) : Char :=
  if 65 ≤ c.toNat ∧ c.toNat ≤ 90 then Char.ofNat (c.toNat + 32) else c

/-- Python str.lower on a string. -/
def pyLower (s : String) : String := ⟨s.data.map asciiLower⟩

/-- Whether a string contains a comma, as in the Python test `"," in s`. -/
def containsComma (s : String) : Bool := containsCommaL s.data

/-- Characters strictly before the first comma. -/
def beforeFirstCommaL : List Char → List Char
  | [] => []
  | c :: r => if c = ',' then [] else c :: beforeFirstCommaL r

/-- Characters strictly after the first comma (the whole list when no comma occurs).
Models the Python expression `s.split(",", 1)[1]` on inputs that contain a comma. -/
def afterFirstCommaL : List Char → List Char
  | [] => []
  | c :: r => if c = ',' then r else afterFirstCommaL r

def beforeFirstComma (s : String) : String := ⟨beforeFirstCommaL s.data⟩

def afterFirstComma (s : String) : String := ⟨afterFirstCommaL s.data⟩

/-- The segment after the last comma, i.e. the Python expression `s.split(",")[-1]`.
When the string has no comma this is the whole string. -/
def afterLastComma (s : String) : String :=
  ⟨(s.data.reverse.takeWhile (fun c => c ≠ ',')).reverse⟩

/-! ## base64 decoding (Python `base64.b64decode`, default validate=False)

Characters outside the base64 alphabet are discarded, trailing `=` padding is
stripped, the remaining length must be congruent mod 4 (1 leftover character is
invalid), and each 4-character group yields 3 bytes (2 or 3 trailing characters
yield 1 or 2 bytes).  This matches CPython on every input whose padding, if
any, is well formed and trailing. -/

/-- Value of a base64 alphabet character. -/
def b64Val (c : Char) : Option Nat :=
  if 65 ≤ c.toNat ∧ c.toNat ≤ 90 then some (c.toNat - 65)
  else if 97 ≤ c.toNat ∧ c.toNat ≤ 122 then some (c.toNat - 97 + 26)
  else if 48 ≤ c.toNat ∧ c.toNat ≤ 57 then some (c.toNat - 48 + 52)
  else if c = '+' then some 62
  else if c = '/' then some 63
  else none

def isB64Char (c : Char) : Bool := (b64Val c).isSome

/-- Decode a padding-free base64 character sequence into bytes. -/
def decodeChunks : List Char → Option (List Nat)
  | [] => some []
  | [_] => none
  | [a, b] => do
      let va ← b64Val a
      let vb ← b64Val b
      pure [(va * 64 + vb) / 16]
  | [a, b, c] => do
      let va ← b64Val a
      let vb ← b64Val b
      let vc ← b64Val c
      let v := (va * 64 + vb) * 64 + vc
      pure [v / 1024, v / 4 % 256]
  | a :: b :: c :: d :: rest => do
      let va ← b64Val a
      let vb ← b64Val b
      let vc ← b64Val c
      let vd ← b64Val d
      let n := ((va * 64 + vb) * 64 + vc) * 64 + vd
      let tail ← decodeChunks rest
      pure (n / 65536 :: n / 256 % 256 :: n % 256 :: tail)

/-- Characters kept by the Python decoder: alphabet and padding. -/
def b64kept (s : String) : List Char := s.data.filter (fun c => isB64Char c || c = '=')

/-- The alphabet prefix before the padding. -/
def b64body (kept : List Char) : List Char := kept.takeWhile (fun c => c ≠ '=')

/-- The trailing part after the alphabet prefix (the padding when well formed). -/
def b64tail (kept : List Char) : List Char := kept.drop (b64body kept).length

/-- Padding check plus decode on a filtered character list. -/
def b64decodeL (kept : List Char) : Option (List Nat) :=
  if (b64tail kept).all (fun c => c = '=') ∧ (b64tail kept).length ≤ 2 ∧
      ((b64body kept).length + (b64tail kept).length) % 4 = 0 then
    decodeChunks (b64body kept)
  else
    none

/-- Python `base64.b64decode(s)` with validate=False: discard characters
outside the alphabet, check the padding, decode; none models the binascii
error on incorrect padding. -/
def b64decode (s : String) : Option (List Nat) := b64decodeL (b64kept s)

/-! ## Data model (section 3 of the schema, tables created in shared.py and db.py) -/

/-- A row of the `tickets` table / the `Ticket` dataclass of shared.py. -/
structure Ticket where
  id : String
  subject : String
  priority : String
  category : String
  description : String
  status : String
  user_id : String
  created_at : String
  attachment_url : Option String
deriving Repr, DecidableEq

/-- A row of the `comments` table. -/
structure CommentRow where
  id : String
  ticket_id : String
  user_id : String
  comment : String
  created_at : String
deriving Repr, DecidableEq

/-- A row of the `ticket_files` table. -/
structure TicketFileRow where
  id : String
  ticket_id : String
  file_url : String
  file_name : String
  created_at : String
deriving Repr, DecidableEq

/-! ## SQL ordering: `ORDER BY created_at DESC`

SQLite compares TEXT columns bytewise (memcmp), which on the ASCII timestamps
stored here is the codepoint-wise lexicographic order of the character data.
The result of `ORDER BY created_at DESC` is embedded as an insertion sort
that keeps rows in weakly descending `created_at` order. -/

/-- Bytewise strict comparison of character lists (the SQLite memcmp order on
the ASCII timestamps stored here). -/
def lexLtB : List Char → List Char → Bool
  | [], [] => false
  | [], _ :: _ => true
  | _ :: _, [] => false
  | a :: as, b :: bs => if a < b then true else if b < a then false else lexLtB as bs

/-- The TEXT comparison SQLite applies to created_at values. -/
def createdLt (a b : String) : Bool := lexLtB a.data b.data

/-- Insert a ticket into a list sorted by weakly descending created_at. -/
def insertCreatedDesc (t : Ticket) : List Ticket → List Ticket
  | [] => [t]
  | h :: r =>
    if createdLt h.created_at t.created_at then t :: h :: r else h :: insertCreatedDesc t r

/-- Sort rows by descending created_at (SQL ORDER BY created_at DESC). -/
def orderByCreatedDesc : List Ticket → List Ticket
  | [] => []
  | t :: r => insertCreatedDesc t (orderByCreatedDesc r)

/-! ## shared.py -/

namespace Shared

/-- shared.py TicketRepository.get_ticket: `SELECT ... FROM tickets WHERE id = ?`
followed by fetchone.  Note: no user_id filter exists in this variant. -/
def get_ticket (ticket_id : String) (tickets : List Ticket) : Option Ticket :=
  tickets.find? (fun t => t.id = ticket_id)

/-- Environment-derived configuration of shared.py StorageManager.
`uuid4_` parameters of the functions below stand for the fresh random token
produced by `uuid.uuid4()` at the corresponding call site. -/
structure StorageCfg where
  max_file_size : Nat
  upload_folder : String
  s3_enabled : Bool
  s3_put_ok : Bool
  bucket : String
  region : String
deriving Repr, DecidableEq

/-- Default MAX_FILE_SIZE from Config (os.getenv("MAX_FILE_SIZE", "10485760")). -/
def defaultMaxFileSize : Nat := 10485760

/-- Failure modes of StorageManager.upload_file: the ValueError raised on an
oversized payload, and the binascii error raised by b64decode; both are
converted to an HTTP 400 by the caller. -/
inductive UploadError where
  | payloadTooLarge (size limit : Nat)
  | invalidBase64
deriving Repr, DecidableEq

/-- The filename-derived storage key of shared.py: `f"{uuid.uuid4()}_{file_name}"`. -/
def unique_filename (uuid4_ : String) (file_name : String) : String :=
  uuid4_ ++ "_" ++ file_name

/-- Size check and store of shared.py upload_file, after a successful decode:
reject when the size strictly exceeds MAX_FILE_SIZE, otherwise store to S3
(with local fallback when the put fails) or to the local uploads folder. -/
def upload_store (cfg : StorageCfg) (file_bytes : List Nat) (file_name : String)
    (uuid4_ : String) : Except UploadError (String × Nat) :=
  if file_bytes.length > cfg.max_file_size then
    .error (.payloadTooLarge file_bytes.length cfg.max_file_size)
  else if cfg.s3_enabled && cfg.s3_put_ok then
    .ok ("https://" ++ cfg.bucket ++ ".s3." ++ cfg.region ++ ".amazonaws.com/" ++
           unique_filename uuid4_ file_name,
         file_bytes.length)
  else
    .ok ("/uploads/" ++ unique_filename uuid4_ file_name, file_bytes.length)

/-- shared.py StorageManager.upload_file on the already comma-stripped payload:
decode, then size-check and store. -/
def upload_body (cfg : StorageCfg) (data : String) (file_name : String)
    (uuid4_ : String) : Except UploadError (String × Nat) :=
  match b64decode data with
  | none => .error .invalidBase64
  | some file_bytes => upload_store cfg file_bytes file_name uuid4_

/-- The payload that shared.py StorageManager.upload_file actually decodes:
`if "," in file_data: file_data = file_data.split(",", 1)[1]`. -/
def strippedPayload (file_data : String) : String :=
  if containsComma file_data then afterFirstComma file_data else file_data

/-- shared.py StorageManager.upload_file (also the logic of
app.py ExtendedTicketRepository.upload_file, which is line for line the same). -/
def upload_file (cfg : StorageCfg) (file_data : String) (file_name : String)
    (uuid4_ : String) : Except UploadError (String × Nat) :=
  upload_body cfg (strippedPayload file_data) file_name uuid4_

end Shared

/-! ## app.py -/

namespace App

/-- app.py TicketRepository.create_ticket: INSERT with status fixed to open,
returning the constructed record.  `ticket_id` and `created_at` stand for the
uuid4() and datetime.now(timezone.utc).isoformat() values generated inside. -/
def create_ticket (tickets : List Ticket)
    (subject priority category description user_id : String)
    (attachment_url : Option String)
    (ticket_id created_at : String) : List Ticket × Ticket :=
  let t : Ticket :=
    { id := ticket_id, subject := subject, priority := priority, category := category
      description := description, status := "open", user_id := user_id
      created_at := created_at, attachment_url := attachment_url }
  (tickets ++ [t], t)

/-- app.py TicketRepository.get_my_tickets:
`SELECT ... WHERE user_id = ? ORDER BY created_at DESC`. -/
def get_my_tickets (tickets : List Ticket) (user_id : String) : List Ticket :=
  orderByCreatedDesc (tickets.filter (fun t => t.user_id = user_id))

/-- app.py TicketRepository.get_ticket: `SELECT ... WHERE id = ?` and, only when
the Python value user_id is truthy, an additional `AND user_id = ?` filter. -/
def get_ticket (tickets : List Ticket) (ticket_id : String)
    (user_id : Option String) : Option Ticket :=
  tickets.find? (fun t =>
    t.id = ticket_id && (if optTruthy user_id then t.user_id = user_id.getD "" else true))

/-- The metrics dict returned by app.py get_dashboard_metrics; the field
open_tickets mirrors the local variable holding the dict key "open". -/
structure Metrics where
  total : Nat
  open_tickets : Nat
  resolved : Nat
deriving Repr, DecidableEq

/-- app.py TicketRepository.get_dashboard_metrics: three COUNT queries, each
scoped by user_id only when it is truthy. -/
def get_dashboard_metrics (tickets : List Ticket) (user_id : Option String) : Metrics :=
  let scope : Ticket → Bool := fun t =>
    if optTruthy user_id then t.user_id = user_id.getD "" else true
  { total := (tickets.filter scope).length
    open_tickets := (tickets.filter (fun t =>
      scope t && (t.status = "open" || t.status = "in_progress"))).length
    resolved := (tickets.filter (fun t =>
      scope t && (t.status = "resolved" || t.status = "closed"))).length }

/-- U+0027, written via its codepoint. -/
def apos : Char := Char.ofNat 39

/-- The fixed acknowledgment text inserted by app.py create_demo_comment. -/
def demo_comment_text : String :=
  "Thank you for submitting your ticket. We" ++ String.mk [apos] ++
    "ve received your request and will respond within 24 hours."

/-- app.py CommentRepository.create_demo_comment: inserts one comment whose
user_id column is the literal string support-team (the requesting user_id
argument is not stored). -/
def create_demo_comment (comments : List CommentRow) (ticket_id : String)
    (_user_id : String) (comment_id created_at : String) : List CommentRow :=
  comments ++ [{ id := comment_id, ticket_id := ticket_id, user_id := "support-team"
                 comment := demo_comment_text, created_at := created_at }]

end App

/-! ## chalicelib: db.py, storage.py, schemas.py -/

namespace Chalice

/-- db.py TicketRepository.create_ticket. -/
def create_ticket (tickets : List Ticket)
    (subject priority category description user_id : String)
    (attachment_url : Option String)
    (ticket_id created_at : String) : List Ticket × Ticket :=
  let t : Ticket :=
    { id := ticket_id, subject := subject, priority := priority, category := category
      description := description, status := "open", user_id := user_id
      created_at := created_at, attachment_url := attachment_url }
  (tickets ++ [t], t)

/-- db.py TicketRepository.list_by_user:
`SELECT * FROM tickets WHERE user_id = ? ORDER BY created_at DESC`. -/
def list_by_user (tickets : List Ticket) (user_id : String) : List Ticket :=
  orderByCreatedDesc (tickets.filter (fun t => t.user_id = user_id))

/-- db.py TicketRepository.get_ticket: WHERE id = ? AND user_id = ? (the owner
filter is unconditional in this variant). -/
def get_ticket (tickets : List Ticket) (ticket_id user_id : String) : Option Ticket :=
  tickets.find? (fun t => t.id = ticket_id && t.user_id = user_id)

/-- db.py TicketRepository.get_metrics: one aggregate row with
total = COUNT(*), open = SUM(status = open), resolved = SUM(status IN
(resolved, closed)), all filtered by user_id. -/
def get_metrics (tickets : List Ticket) (user_id : String) : App.Metrics :=
  let mine := tickets.filter (fun t => t.user_id = user_id)
  { total := mine.length
    open_tickets := (mine.filter (fun t => t.status = "open")).length
    resolved := (mine.filter (fun t => t.status = "resolved" || t.status = "closed")).length }

/-- The fixed text of db.py CommentRepository.seed_demo_comment. -/
def seed_comment_text : String :=
  "Thanks for opening this ticket – we will get back to you shortly."

/-- db.py CommentRepository.seed_demo_comment: inserts one comment whose
user_id column is the user_id argument passed by the caller. -/
def seed_demo_comment (comments : List CommentRow) (ticket_id user_id : String)
    (comment_id created_at : String) : List CommentRow :=
  comments ++ [{ id := comment_id, ticket_id := ticket_id, user_id := user_id
                 comment := seed_comment_text, created_at := created_at }]

/-- db.py CommentRepository.list_for_ticket (ascending created_at order is kept
abstract here; only the filter matters for the claims below). -/
def list_for_ticket (comments : List CommentRow) (ticket_id : String) : List CommentRow :=
  comments.filter (fun c => c.ticket_id = ticket_id)

/-- Configuration of storage.py StorageClient. -/
structure StoreCfg where
  bucket : String
  region : String
  offline : Bool
deriving Repr, DecidableEq

/-- storage.py failure mode: the base64 decode error (re-raised as is). -/
inductive StoreError where
  | decodeFailed
deriving Repr, DecidableEq

/-- The storage key of storage.py: `f"tickets/{uuid.uuid4()}-{filename}"`. -/
def storeKey (uuid4_ : String) (filename : String) : String :=
  "tickets/" ++ uuid4_ ++ "-" ++ filename

/-- storage.py StorageClient.store_base64_blob: decode the segment after the
last comma (`blob.split(",")[-1]`) and store under the key; the offline branch
builds a mock URL with backslashes replaced.  There is no size check in this
variant. -/
def store_base64_blob (cfg : StoreCfg) (blob filename : String)
    (uuid4_ : String) : Except StoreError (String × String) :=
  let key := storeKey uuid4_ filename
  match b64decode (afterLastComma blob) with
  | none => .error .decodeFailed
  | some _ =>
    if cfg.offline then
      .ok (⟨("http://localhost/mock-s3/" ++ key).data.map
              (fun c => if c = '\\' then '/' else c)⟩, key)
    else
      .ok ("https://" ++ cfg.bucket ++ ".s3." ++ cfg.region ++ ".amazonaws.com/" ++ key, key)

/-- The JSON body of a create-ticket request as seen by schemas.py
(absent dict keys are none). -/
structure RawBody where
  subject : Option String
  priority : Option String
  category : Option String
  description : Option String
  attachment : Option String
  attachment_name : Option String
  attachment_type : Option String
deriving Repr, DecidableEq

/-- schemas.py CreateTicketPayload. -/
structure CreateTicketPayload where
  subject : String
  priority : String
  category : String
  description : String
  attachment : Option String
  attachment_name : Option String
  attachment_type : Option String
deriving Repr, DecidableEq

/-- REQUIRED_FIELDS of schemas.py, with the falsiness test of
`[f for f in REQUIRED_FIELDS if not body.get(f)]`. -/
def missingFields (b : RawBody) : List String :=
  (if optTruthy b.subject then [] else ["subject"]) ++
  (if optTruthy b.priority then [] else ["priority"]) ++
  (if optTruthy b.category then [] else ["category"]) ++
  (if optTruthy b.description then [] else ["description"])

/-- schemas.py parse_ticket_payload.  The BadRequestError messages are kept
verbatim except that the source wraps the offending priority in U+0027 quotes,
which are rendered here via `App.apos`. -/
def parse_ticket_payload (b : RawBody) : Except String CreateTicketPayload :=
  let missing := missingFields b
  if missing ≠ [] then
    .error ("Missing required field(s): " ++ String.intercalate ", " missing)
  else
    let priority := pyLower (b.priority.getD "")
    if priority ∉ ["low", "medium", "high"] then
      .error ("Invalid priority " ++ String.mk [App.apos] ++ priority ++ String.mk [App.apos] ++
        ". Allowed: high, low, medium")
    else if optTruthy b.attachment ∧ ¬ optTruthy b.attachment_name then
      .error "attachment_name is required when attachment is supplied"
    else if optTruthy b.attachment ∧ (b64decode (afterLastComma (b.attachment.getD ""))).isNone then
      .error "attachment must be Base64 encoded"
    else
      .ok { subject := b.subject.getD "", priority := priority
            category := b.category.getD "", description := b.description.getD ""
            attachment := b.attachment, attachment_name := b.attachment_name
            attachment_type := b.attachment_type }

end Chalice

/-! ## simple_app.py -/

namespace SimpleApp

/-- simple_app.py TicketRepository.get_dashboard_metrics (user_id mandatory). -/
def get_dashboard_metrics (tickets : List Ticket) (user_id : String) : App.Metrics :=
  { total := (tickets.filter (fun t => t.user_id = user_id)).length
    open_tickets := (tickets.filter (fun t =>
      t.user_id = user_id && (t.status = "open" || t.status = "in_progress"))).length
    resolved := (tickets.filter (fun t =>
      t.user_id = user_id && (t.status = "resolved" || t.status = "closed"))).length }

/-- The inline single-ticket query of the simple_app.py get_ticket endpoint:
WHERE id = ? AND user_id = ? (owner filter unconditional). -/
def get_ticket_query (tickets : List Ticket) (ticket_id user_id : String) : Option Ticket :=
  tickets.find? (fun t => t.id = ticket_id && t.user_id = user_id)

end SimpleApp

/-! ## Endpoint-level create-ticket flows (app.py and app_new.py)

Both endpoints are embedded as functions from the request plus the generated
identifiers and timestamps to either an error response or the new state.
`ErrResp` carries the status code and detail of the raised HTTPException. -/

/-- The pydantic CreateTicketRequest body shared by app.py and app_new.py. -/
structure CreateTicketRequest where
  subject : String
  priority : String
  category : String
  description : String
  attachment : Option String
  attachment_name : Option String
  attachment_type : Option String
deriving Repr, DecidableEq

structure ErrResp where
  status_code : Nat
  detail : String
deriving Repr, DecidableEq

/-- Combined database state touched by a create-ticket request. -/
structure DbState where
  tickets : List Ticket
  comments : List CommentRow
  ticket_files : List TicketFileRow
deriving Repr, DecidableEq

/-- Fresh values generated during one create call: uuid4 tokens and
datetime.now(timezone.utc).isoformat() readings, in order of generation. -/
structure GenValues where
  upload_uuid : String
  ticket_id : String
  ticket_created_at : String
  file_id : String
  file_created_at : String
  comment_id : String
  comment_created_at : String
deriving Repr, DecidableEq

namespace App

/-- Render an upload failure the way `str(e)` does for the two error cases. -/
def uploadErrorText : Shared.UploadError → String
  | .payloadTooLarge size limit =>
      "File size (" ++ toString size ++ ") exceeds limit (" ++ toString limit ++ ")"
  | .invalidBase64 => "Invalid base64-encoded string"

/-- app.py POST /tickets: validate the required fields and the priority,
upload the attachment when both attachment and attachment_name are truthy
(failure surfaces as an HTTP 400 and nothing is inserted), then insert the
ticket, the ticket_files row and the demo comment. -/
def create_ticket_endpoint (cfg : Shared.StorageCfg) (st : DbState)
    (req : CreateTicketRequest) (user_id : String) (gen : GenValues) :
    Except ErrResp (DbState × Ticket) :=
  if ¬ (strTruthy req.subject ∧ strTruthy req.priority ∧ strTruthy req.category ∧
        strTruthy req.description) then
    .error ⟨400, "Missing required fields"⟩
  else if req.priority ∉ ["low", "medium", "high", "P1"] then
    .error ⟨400, "Invalid priority. Must be: low, medium, high, or P1"⟩
  else
    let uploaded : Except ErrResp (Option String) :=
      if optTruthy req.attachment ∧ optTruthy req.attachment_name then
        match Shared.upload_file cfg (req.attachment.getD "") (req.attachment_name.getD "")
            gen.upload_uuid with
        | .error e => .error ⟨400, "File upload failed: " ++ uploadErrorText e⟩
        | .ok (url, _) => .ok (some url)
      else
        .ok none
    match uploaded with
    | .error e => .error e
    | .ok attachment_url =>
      let (tickets', t) := create_ticket st.tickets req.subject req.priority req.category
        req.description user_id attachment_url gen.ticket_id gen.ticket_created_at
      let files' :=
        match attachment_url with
        | none => st.ticket_files
        | some url => st.ticket_files ++
            [{ id := gen.file_id, ticket_id := t.id, file_url := url
               file_name := req.attachment_name.getD "", created_at := gen.file_created_at }]
      let comments' := create_demo_comment st.comments t.id user_id
        gen.comment_id gen.comment_created_at
      .ok ({ tickets := tickets', comments := comments', ticket_files := files' }, t)

end App

namespace AppNew

/-- app_new.py POST /tickets: no required-field or priority validation; a
failed upload is caught and the request continues with attachment_url = None;
the ticket is created for Config.DEFAULT_USER_ID. -/
def create_ticket_endpoint (cfg : Shared.StorageCfg) (tickets : List Ticket)
    (req : CreateTicketRequest) (default_user_id : String) (gen : GenValues) :
    List Ticket × Ticket :=
  let attachment_url : Option String :=
    if optTruthy req.attachment ∧ optTruthy req.attachment_name then
      match Shared.upload_file cfg (req.attachment.getD "") (req.attachment_name.getD "")
          gen.upload_uuid with
      | .error _ => none
      | .ok (url, _) => some url
    else
      none
  App.create_ticket tickets req.subject req.priority req.category req.description
    default_user_id attachment_url gen.ticket_id gen.ticket_created_at

/-- app_new.py GET /tickets/{id}: calls the inherited shared.py get_ticket with
the id only; the requesting user never reaches the query. -/
def get_ticket_endpoint (tickets : List Ticket) (ticket_id : String)
    (_requester : String) : Option Ticket :=
  Shared.get_ticket ticket_id tickets

end AppNew

/-! ## UTC timestamps

The repositories store `datetime.now(timezone.utc).isoformat()` strings.  The
definitions below model the CPython datetime library: a clock reading is a
number of microseconds since 1970-01-01T00:00:00 UTC, converted to a civil
date through the proleptic Gregorian calendar (the era/year-of-era arithmetic
below is the standard division-based conversion) and rendered exactly the way
`isoformat` renders an aware UTC datetime: `YYYY-MM-DDTHH:MM:SS[.ffffff]+00:00`
with the fraction omitted when the microsecond field is zero. -/

/-- Microseconds in a day. -/
def microsPerDay : Nat := 86400000000

/-- First instant (in microseconds since the epoch) not representable by
CPython datetime: 10000-01-01T00:00:00 UTC. -/
def pyMaxMicros : Nat := 253402300800000000

/-- Days of era before year-of-era y (valid for y up to 399). -/
def daysBeforeYoe (y : Nat) : Nat := 365 * y + y / 4 - y / 100

/-- End (exclusive) of the day-of-era range of year-of-era y. -/
def upperDoe (y : Nat) : Nat := if y = 399 then 146097 else daysBeforeYoe (y + 1)

/-- The adjusted day count from which the year of era is read off. -/
def accumA (doe : Nat) : Nat := doe - doe / 1460 + doe / 36524 - doe / 146096

/-- Year of era (0 to 399) of a day of era. -/
def yoeOf (doe : Nat) : Nat := accumA doe / 365

/-- Day within the March-based year of era. -/
def doyOf (doe : Nat) : Nat := doe - daysBeforeYoe (yoeOf doe)

/-- Shifted month index of a day of the March-based year. -/
def mpOf (doy : Nat) : Nat := (5 * doy + 2) / 153

/-- Civil month (1 to 12) of a day of the March-based year. -/
def monthOf (doy : Nat) : Nat := if mpOf doy < 10 then mpOf doy + 3 else mpOf doy - 9

/-- Civil day of month of a day of the March-based year. -/
def dayOf (doy : Nat) : Nat := doy - (153 * mpOf doy + 2) / 5 + 1

/-- 1 when the civil month belongs to the next civil year (January, February). -/
def adjOf (doy : Nat) : Nat := if monthOf doy ≤ 2 then 1 else 0

/-- Civil (year, month, day) of a day count since 1970-01-01 (proleptic
Gregorian calendar). -/
def civilFromDays (z : Nat) : Nat × Nat × Nat :=
  let era := (z + 719468) / 146097
  let doe := (z + 719468) % 146097
  (yoeOf doe + era * 400 + adjOf (doyOf doe), monthOf (doyOf doe), dayOf (doyOf doe))

/-- An aware UTC datetime. -/
structure DateTimeUTC where
  year : Nat
  month : Nat
  day : Nat
  hour : Nat
  minute : Nat
  second : Nat
  micro : Nat
deriving Repr, DecidableEq

/-- The datetime denoted by a count of microseconds since the epoch
(datetime.fromtimestamp in UTC). -/
def dtFromMicros (m : Nat) : DateTimeUTC :=
  let c := civilFromDays (m / microsPerDay)
  let tod := m % microsPerDay
  { year := c.1, month := c.2.1, day := c.2.2
    hour := tod / 3600000000, minute := tod / 60000000 % 60
    second := tod / 1000000 % 60, micro := tod % 1000000 }

/-- The decimal digit character of j (for j < 10). -/
def d2cDigit : Nat → Char
  | 0 => '0' | 1 => '1' | 2 => '2' | 3 => '3' | 4 => '4'
  | 5 => '5' | 6 => '6' | 7 => '7' | 8 => '8' | _ => '9'

/-- The character of the lowest decimal digit of n. -/
def d2c (n : Nat) : Char := d2cDigit (n % 10)

/-- Zero-padded 2-digit rendering (faithful for n up to 99). -/
def twoDigits (n : Nat) : List Char := [d2c (n / 10), d2c n]

/-- Zero-padded 4-digit rendering (faithful for n up to 9999). -/
def fourDigits (n : Nat) : List Char := [d2c (n / 1000), d2c (n / 100), d2c (n / 10), d2c n]

/-- Zero-padded 6-digit rendering (faithful for n up to 999999). -/
def sixDigits (n : Nat) : List Char :=
  [d2c (n / 100000), d2c (n / 10000), d2c (n / 1000), d2c (n / 100), d2c (n / 10), d2c n]

/-- The character form of datetime.isoformat for an aware UTC datetime. -/
def isoChars (dt : DateTimeUTC) : List Char :=
  fourDigits dt.year ++ '-' :: (twoDigits dt.month ++ '-' :: (twoDigits dt.day ++
    'T' :: (twoDigits dt.hour ++ ':' :: (twoDigits dt.minute ++ ':' :: (twoDigits dt.second ++
      ((if dt.micro = 0 then [] else '.' :: sixDigits dt.micro) ++
        ['+', '0', '0', ':', '0', '0']))))))

/-- datetime.now(timezone.utc).isoformat() for a clock reading in
microseconds since the epoch. -/
def isoFromMicros (m : Nat) : String := ⟨isoChars (dtFromMicros m)⟩

/-! ### Spec-side ISO-8601 validator: a parser for aware UTC timestamps -/

/-- A decimal digit value. -/
def readDigit (c : Char) : Option Nat :=
  if 48 ≤ c.toNat ∧ c.toNat ≤ 57 then some (c.toNat - 48) else none

/-- Read exactly two digits. -/
def read2 : List Char → Option (Nat × List Char)
  | a :: b :: r =>
    match readDigit a, readDigit b with
    | some x, some y => some (x * 10 + y, r)
    | _, _ => none
  | _ => none

/-- Read exactly four digits. -/
def read4 : List Char → Option (Nat × List Char)
  | a :: b :: c :: d :: r =>
    match readDigit a, readDigit b, readDigit c, readDigit d with
    | some x1, some x2, some x3, some x4 => some (x1 * 1000 + x2 * 100 + x3 * 10 + x4, r)
    | _, _, _, _ => none
  | _ => none

/-- Read exactly six digits. -/
def read6 : List Char → Option (Nat × List Char)
  | a :: b :: c :: d :: e :: f :: r =>
    match readDigit a, readDigit b, readDigit c, readDigit d, readDigit e, readDigit f with
    | some x1, some x2, some x3, some x4, some x5, some x6 =>
      some (x1 * 100000 + x2 * 10000 + x3 * 1000 + x4 * 100 + x5 * 10 + x6, r)
    | _, _, _, _, _, _ => none
  | _ => none

/-- Expect one literal character. -/
def expectChar (c : Char) : List Char → Option (List Char)
  | x :: r => if x = c then some r else none
  | _ => none

/-- Upper bound of the day-of-month per month (Feb 29 admitted; month 1-12). -/
def daysInMonthMax : Nat → Nat
  | 1 => 31 | 2 => 29 | 3 => 31 | 4 => 30 | 5 => 31 | 6 => 30
  | 7 => 31 | 8 => 31 | 9 => 30 | 10 => 31 | 11 => 30 | 12 => 31
  | _ => 0

/-- Parse the YYYY-MM-DD prefix. -/
def parseDatePart (l : List Char) : Option (Nat × Nat × Nat × List Char) :=
  match read4 l with
  | none => none
  | some (y, r1) =>
    match expectChar '-' r1 with
    | none => none
    | some r2 =>
      match read2 r2 with
      | none => none
      | some (mo, r3) =>
        match expectChar '-' r3 with
        | none => none
        | some r4 =>
          match read2 r4 with
          | none => none
          | some (d, r5) => some (y, mo, d, r5)

/-- Parse the optional .ffffff fraction (0 when absent). -/
def parseFrac : List Char → Option (Nat × List Char)
  | '.' :: r2 => read6 r2
  | r => some (0, r)

/-- Parse the THH:MM:SS[.ffffff] part. -/
def parseTimePart (l : List Char) : Option (Nat × Nat × Nat × Nat × List Char) :=
  match expectChar 'T' l with
  | none => none
  | some r1 =>
    match read2 r1 with
    | none => none
    | some (h, r2) =>
      match expectChar ':' r2 with
      | none => none
      | some r3 =>
        match read2 r3 with
        | none => none
        | some (mi, r4) =>
          match expectChar ':' r4 with
          | none => none
          | some r5 =>
            match read2 r5 with
            | none => none
            | some (s, r6) =>
              match parseFrac r6 with
              | none => none
              | some (us, r7) => some (h, mi, s, us, r7)

/-- The +00:00 offset of an aware UTC datetime, ending the string. -/
def expectUtcSuffix : List Char → Option Unit
  | ['+', '0', '0', ':', '0', '0'] => some ()
  | _ => none

/-- Field ranges of a civil datetime (day checked against the month length,
with Feb 29 admitted). -/
def dtRangesOk (dt : DateTimeUTC) : Bool :=
  decide (1 ≤ dt.month) && decide (dt.month ≤ 12) &&
  decide (1 ≤ dt.day) && decide (dt.day ≤ daysInMonthMax dt.month) &&
  decide (dt.hour ≤ 23) && decide (dt.minute ≤ 59) &&
  decide (dt.second ≤ 59) && decide (dt.micro ≤ 999999)

/-- Parse an aware UTC ISO-8601 timestamp of the isoformat shape, checking
the field ranges; none on any malformation. -/
def parseIsoUtcL (l : List Char) : Option DateTimeUTC :=
  match parseDatePart l with
  | none => none
  | some (y, mo, d, r) =>
    match parseTimePart r with
    | none => none
    | some (h, mi, s, us, r2) =>
      match expectUtcSuffix r2 with
      | none => none
      | some _ =>
        let dt : DateTimeUTC :=
          { year := y, month := mo, day := d, hour := h, minute := mi, second := s, micro := us }
        if dtRangesOk dt then some dt else none

/-- Parse an aware UTC ISO-8601 timestamp string. -/
def parseIsoUtc (s : String) : Option DateTimeUTC := parseIsoUtcL s.data

/-- Spec-side validity of a stored created_at string: it parses as an aware
UTC ISO-8601 timestamp with all fields in range. -/
def isValidIsoUtc (s : String) : Bool := (parseIsoUtc s).isSome

/-! ### Balanced exhaustive checking -/

/-- Balanced range check: tests p (lo+i) for all i < size, with logarithmic
evaluation depth so that large ranges reduce without deep recursion. -/
def allBelow (p : Nat → Bool) : Nat → Nat → Nat → Bool
  | 0, lo, size => size == 0 || (size == 1 && p lo)
  | fuel + 1, lo, size =>
    if size ≤ 1 then size == 0 || (size == 1 && p lo)
    else
      let h := size / 2
      allBelow p fuel lo h && allBelow p fuel (lo + h) (size - h)

/-- Strict lexicographic order on civil date triples. -/
def tripleLt (a b : Nat × Nat × Nat) : Prop :=
  a.1 < b.1 ∨ (a.1 = b.1 ∧ (a.2.1 < b.2.1 ∨ (a.2.1 = b.2.1 ∧ a.2.2 < b.2.2)))

instance (a b : Nat × Nat × Nat) : Decidable (tripleLt a b) := by
  unfold tripleLt
  infer_instance

/-- Strict lexicographic (chronological) order on datetime fields. -/
def dtLex (a b : DateTimeUTC) : Prop :=
  a.year < b.year ∨ (a.year = b.year ∧ (a.month < b.month ∨ (a.month = b.month ∧
    (a.day < b.day ∨ (a.day = b.day ∧ (a.hour < b.hour ∨ (a.hour = b.hour ∧
      (a.minute < b.minute ∨ (a.minute = b.minute ∧ (a.second < b.second ∨
        (a.second = b.second ∧ a.micro < b.micro)))))))))))

/-- Endpoint check for one year of era: accumA stays in the right band of
multiples of 365, and the year interval is nonempty and inside the era. -/
def yoeIntervalCheck (y : Nat) : Bool :=
  decide (365 * y ≤ accumA (daysBeforeYoe y)) &&
  decide (accumA (upperDoe y - 1) < 365 * y + 365) &&
  decide (daysBeforeYoe y < upperDoe y) &&
  decide (upperDoe y ≤ 146097)

/-- Range check for one day of the March-based year: month and day of month
in range, and the month belongs to January or February exactly from day 306 on. -/
def doyRangeCheck (doy : Nat) : Bool :=
  decide (1 ≤ monthOf doy) && decide (monthOf doy ≤ 12) &&
  decide (1 ≤ dayOf doy) && decide (dayOf doy ≤ daysInMonthMax (monthOf doy)) &&
  ((mpOf doy < 10 : Bool) == (doy < 306 : Bool))

/-- One-day step check: within a March-based year the triple
(year adjustment, month, day) strictly increases. -/
def doyTickCheck (doy : Nat) : Bool :=
  decide (tripleLt (adjOf doy, monthOf doy, dayOf doy)
    (adjOf (doy + 1), monthOf (doy + 1), dayOf (doy + 1)))

/-! ## Outcome helpers and spec-side definitions -/

/-- Whether an Except value is a success. -/
def okB {ε α : Type} : Except ε α → Bool
  | .ok _ => true
  | .error _ => false

/-- Spec-modelled sanitizer, following the spec words "the original filename
(sanitized of path separators)": removes every / and backslash.  This is the
refinement target the key-generation claim compares the code against; the
source performs no such sanitization. -/
def specSanitized (name : String) : String :=
  ⟨name.data.filter (fun c => if c = '/' ∨ c = '\\' then false else true)⟩

/-- Split a character list at slashes (spec-side). -/
def splitSlashL : List Char → List (List Char)
  | [] => [[]]
  | c :: r =>
    if c = '/' then [] :: splitSlashL r
    else
      match splitSlashL r with
      | [] => [[c]]
      | seg :: rest => (c :: seg) :: rest

/-- Split a POSIX path into slash-separated components (spec-side). -/
def splitSlash (s : String) : List String := (splitSlashL s.data).map (fun l => ⟨l⟩)

/-- Resolve .. components the way the operating system does when the path is
opened (spec-side model of path resolution). -/
def resolveDots (comps : List String) : List String :=
  comps.foldl (fun acc c => if c = ".." then acc.dropLast else acc ++ [c]) []

/-- Whether a relative path, after resolving .., leaves the given root
directory (spec-side). -/
def escapesRootB (root : String) (path : String) : Bool :=
  match resolveDots (splitSlash path) with
  | [] => true
  | c :: _ => c ≠ root

/-! ## Concrete fixtures -/

/-- A stored ticket owned by alice. -/
def aliceTicket : Ticket :=
  { id := "t1", subject := "printer broken", priority := "low", category := "hardware"
    description := "it smokes", status := "open", user_id := "alice"
    created_at := "2024-01-01T00:00:00+00:00", attachment_url := none }

/-- One ticket of each of the four statuses, all owned by u1. -/
def fourStatusTable : List Ticket :=
  [{ id := "a1", subject := "s1", priority := "low", category := "c", description := "d"
     status := "open", user_id := "u1", created_at := "2024-01-01T10:00:00+00:00"
     attachment_url := none },
   { id := "a2", subject := "s2", priority := "low", category := "c", description := "d"
     status := "in_progress", user_id := "u1", created_at := "2024-01-02T10:00:00+00:00"
     attachment_url := none },
   { id := "a3", subject := "s3", priority := "low", category := "c", description := "d"
     status := "resolved", user_id := "u1", created_at := "2024-01-03T10:00:00+00:00"
     attachment_url := none },
   { id := "a4", subject := "s4", priority := "low", category := "c", description := "d"
     status := "closed", user_id := "u1", created_at := "2024-01-04T10:00:00+00:00"
     attachment_url := none }]

/-- A local-only storage configuration with the default size limit. -/
def localCfg : Shared.StorageCfg :=
  { max_file_size := Shared.defaultMaxFileSize, upload_folder := "uploads"
    s3_enabled := false, s3_put_ok := false, bucket := "", region := "us-east-1" }

/-- A tiny storage configuration whose limit is 3 bytes. -/
def tinyCfg : Shared.StorageCfg :=
  { max_file_size := 3, upload_folder := "uploads"
    s3_enabled := false, s3_put_ok := false, bucket := "", region := "us-east-1" }

/-- A create request whose attachment is not valid base64 (length 1 after
filtering, which b64decode rejects). -/
def badAttachmentReq : CreateTicketRequest :=
  { subject := "s", priority := "low", category := "c", description := "d"
    attachment := some "A", attachment_name := some "f.txt", attachment_type := none }

/-- Fresh identifiers and timestamps for one concrete create call. -/
def gen0 : GenValues :=
  { upload_uuid := "u0", ticket_id := "t9", ticket_created_at := "2024-02-02T00:00:00+00:00"
    file_id := "f0", file_created_at := "2024-02-02T00:00:00+00:00"
    comment_id := "c0", comment_created_at := "2024-02-02T00:00:00+00:00" }

/-- A payload with all four required fields present and non-empty but an
unknown priority. -/
def urgentBody : Chalice.RawBody :=
  { subject := some "a", priority := some "urgent", category := some "b"
    description := some "c", attachment := none, attachment_name := none
    attachment_type := none }

/-- A payload missing only the description. -/
def missingDescBody : Chalice.RawBody :=
  { subject := some "a", priority := some "low", category := some "b"
    description := none, attachment := none, attachment_name := none
    attachment_type := none }

/-- A payload with all four required fields and no attachment. -/
def goodBody : Chalice.RawBody :=
  { subject := some "a", priority := some "low", category := some "b"
    description := some "c", attachment := none, attachment_name := none
    attachment_type := none }

/-- A data URI carrying the base64 payload QUJD after the comma. -/
def dataUri : String := "data:image/png;base64,QUJD"

/-- A blob of 13981016 base64 characters, decoding to 10485762 bytes, two
bytes over the default 10 MiB limit. -/
def oversizedBlob : String := ⟨List.replicate 13981016 'A'⟩

/-- A ticket of u2 created at the clock reading one day after the epoch. -/
def laterTicket : Ticket :=
  { id := "b1", subject := "later", priority := "low", category := "c", description := "d"
    status := "open", user_id := "u2", created_at := isoFromMicros 86400000000
    attachment_url := none }

/-- A ticket of u2 created at the epoch. -/
def earlierTicket : Ticket :=
  { id := "b2", subject := "earlier", priority := "low", category := "c", description := "d"
    status := "open", user_id := "u2", created_at := isoFromMicros 0
    attachment_url := none }

/-- A two-ticket table stored in creation order (oldest first). -/
def c6Table : List Ticket := [earlierTicket, laterTicket]

/-- The clock reading at which each fixture ticket was created. -/
def c6Times (t : Ticket) : Nat := if t.id = "b1" then 86400000000 else 0

/-! ## Calendar facts

The exhaustive parts are discharged by evaluating the balanced checker over
one era of 400 years (146097 days), one year (366 day positions) and the
digit alphabet; the rest is division arithmetic. -/

theorem allBelow_sound (p : Nat → Bool) :
    ∀ fuel lo size, allBelow p fuel lo size = true → ∀ i, i < size → p (lo + i) = true := by
  intro fuel
  induction fuel with
  | zero =>
    intro lo size h i hi
    simp only [allBelow, Bool.or_eq_true, Bool.and_eq_true, beq_iff_eq] at h
    rcases h with h | ⟨h1, h2⟩
    · omega
    · have : i = 0 := by omega
      simpa [this] using h2
  | succ fuel ih =>
    intro lo size h i hi
    rw [allBelow] at h
    by_cases hs : size ≤ 1
    · simp only [if_pos hs, Bool.or_eq_true, Bool.and_eq_true, beq_iff_eq] at h
      rcases h with h | ⟨h1, h2⟩
      · omega
      · have : i = 0 := by omega
        simpa [this] using h2
    · simp only [if_neg hs, Bool.and_eq_true] at h
      by_cases hih : i < size / 2
      · exact ih lo (size / 2) h.1 i hih
      · have hx := ih (lo + size / 2) (size - size / 2) h.2 (i - size / 2) (by omega)
        have he : lo + size / 2 + (i - size / 2) = lo + i := by omega
        rwa [he] at hx

theorem accumA_succ_le (d : Nat) : accumA d ≤ accumA (d + 1) := by
  unfold accumA
  omega

theorem accumA_mono {d1 d2 : Nat} (h : d1 ≤ d2) : accumA d1 ≤ accumA d2 :=
  monotone_nat_of_le_succ accumA_succ_le h

theorem yoeIntervalCheck_all : ∀ y, y < 400 → yoeIntervalCheck y = true := by
  have h : allBelow yoeIntervalCheck 9 0 400 = true := by decide
  intro y hy
  simpa using allBelow_sound yoeIntervalCheck 9 0 400 h y hy

theorem doyRangeCheck_all : ∀ doy, doy < 366 → doyRangeCheck doy = true := by
  have h : allBelow doyRangeCheck 9 0 366 = true := by decide
  intro doy hd
  simpa using allBelow_sound doyRangeCheck 9 0 366 h doy hd

theorem doyTickCheck_all : ∀ doy, doy < 365 → doyTickCheck doy = true := by
  have h : allBelow doyTickCheck 9 0 365 = true := by decide
  intro doy hd
  simpa using allBelow_sound doyTickCheck 9 0 365 h doy hd

theorem yoeInterval_facts (y : Nat) (hy : y < 400) :
    365 * y ≤ accumA (daysBeforeYoe y) ∧ accumA (upperDoe y - 1) < 365 * y + 365 ∧
    daysBeforeYoe y < upperDoe y ∧ upperDoe y ≤ 146097 := by
  have h := yoeIntervalCheck_all y hy
  unfold yoeIntervalCheck at h
  simp only [Bool.and_eq_true, decide_eq_true_eq] at h
  exact ⟨h.1.1.1, h.1.1.2, h.1.2, h.2⟩

theorem doeCovered : ∀ doe, doe < 146097 →
    ∃ y, y < 400 ∧ daysBeforeYoe y ≤ doe ∧ doe < upperDoe y := by
  intro doe
  induction doe with
  | zero =>
    intro _
    refine ⟨0, by omega, by decide, by decide⟩
  | succ d ih =>
    intro h
    obtain ⟨y, hy, hge, hlt⟩ := ih (by omega)
    by_cases hcase : d + 1 < upperDoe y
    · exact ⟨y, hy, by omega, hcase⟩
    · have heq : d + 1 = upperDoe y := by omega
      have hy399 : y ≠ 399 := by
        intro h399
        subst h399
        unfold upperDoe at heq
        simp at heq
        omega
      have hup : upperDoe y = daysBeforeYoe (y + 1) := by
        unfold upperDoe
        rw [if_neg hy399]
      have hy1 : y + 1 < 400 := by
        rcases Nat.lt_or_ge (y + 1) 400 with h' | h'
        · exact h'
        · exact absurd (by omega : y = 399) hy399
      refine ⟨y + 1, hy1, by omega, ?_⟩
      have hne := (yoeInterval_facts (y + 1) hy1).2.2.1
      omega

theorem yoeOf_eq (doe y : Nat) (hy : y < 400) (hge : daysBeforeYoe y ≤ doe)
    (hlt : doe < upperDoe y) : yoeOf doe = y := by
  obtain ⟨h1, h2, h3, h4⟩ := yoeInterval_facts y hy
  have hA1 : 365 * y ≤ accumA doe := le_trans h1 (accumA_mono hge)
  have hA2 : accumA doe < 365 * y + 365 :=
    lt_of_le_of_lt (accumA_mono (by omega : doe ≤ upperDoe y - 1)) h2
  unfold yoeOf
  omega

theorem yearLen_bounds (y : Nat) (hy : y < 399) :
    365 ≤ daysBeforeYoe (y + 1) - daysBeforeYoe y ∧
    daysBeforeYoe (y + 1) - daysBeforeYoe y ≤ 366 := by
  unfold daysBeforeYoe
  omega

theorem doy_facts (doe y : Nat) (hy : y < 400) (hge : daysBeforeYoe y ≤ doe)
    (hlt : doe < upperDoe y) :
    doyOf doe = doe - daysBeforeYoe y ∧ doyOf doe ≤ 365 := by
  have hyoe := yoeOf_eq doe y hy hge hlt
  have hbound : upperDoe y - daysBeforeYoe y ≤ 366 := by
    by_cases h399 : y = 399
    · subst h399
      decide
    · have := yearLen_bounds y (by omega)
      unfold upperDoe
      rw [if_neg h399]
      omega
  unfold doyOf
  rw [hyoe]
  omega

theorem doyRange_facts (doy : Nat) (h : doy ≤ 365) :
    1 ≤ monthOf doy ∧ monthOf doy ≤ 12 ∧ 1 ≤ dayOf doy ∧
    dayOf doy ≤ daysInMonthMax (monthOf doy) ∧ (mpOf doy < 10 ↔ doy < 306) := by
  have hc := doyRangeCheck_all doy (by omega)
  unfold doyRangeCheck at hc
  simp only [Bool.and_eq_true, decide_eq_true_eq, beq_iff_eq] at hc
  refine ⟨hc.1.1.1.1, hc.1.1.1.2, hc.1.1.2, hc.1.2, ?_⟩
  have := hc.2
  constructor
  · intro hmp
    by_contra hd
    rw [decide_eq_true hmp] at this
    have : (decide (doy < 306)) = true := this.symm
    exact hd (of_decide_eq_true this)
  · intro hd
    by_contra hmp
    rw [decide_eq_false hmp] at this
    have : (decide (doy < 306)) = false := this.symm
    exact (of_decide_eq_false this) hd

theorem civilFromDays_eq (z era doe : Nat) (h : z + 719468 = era * 146097 + doe)
    (hdoe : doe < 146097) :
    civilFromDays z =
      (yoeOf doe + era * 400 + adjOf (doyOf doe), monthOf (doyOf doe), dayOf (doyOf doe)) := by
  unfold civilFromDays
  have hdiv : (z + 719468) / 146097 = era := by omega
  have hmod : (z + 719468) % 146097 = doe := by omega
  rw [hdiv, hmod]

theorem tripleLt_shift (c a1 m1 d1 a2 m2 d2 : Nat)
    (h : tripleLt (a1, m1, d1) (a2, m2, d2)) :
    tripleLt (c + a1, m1, d1) (c + a2, m2, d2) := by
  unfold tripleLt at h ⊢
  dsimp only at h ⊢
  omega

theorem tripleLt_trans {a b c : Nat × Nat × Nat}
    (h1 : tripleLt a b) (h2 : tripleLt b c) : tripleLt a c := by
  unfold tripleLt at h1 h2 ⊢
  omega

/-- One day forward, the civil date strictly increases. -/
theorem civil_succ (z : Nat) : tripleLt (civilFromDays z) (civilFromDays (z + 1)) := by
  have hdoe : (z + 719468) % 146097 < 146097 := Nat.mod_lt _ (by omega)
  have hsplit : z + 719468 = ((z + 719468) / 146097) * 146097 + (z + 719468) % 146097 := by
    omega
  set era := (z + 719468) / 146097 with hera
  set doe := (z + 719468) % 146097 with hdoedef
  have h1 : civilFromDays z =
      (yoeOf doe + era * 400 + adjOf (doyOf doe), monthOf (doyOf doe), dayOf (doyOf doe)) :=
    civilFromDays_eq z era doe (by omega) hdoe
  by_cases hlast : doe = 146096
  · have h2 : civilFromDays (z + 1) =
        (yoeOf 0 + (era + 1) * 400 + adjOf (doyOf 0), monthOf (doyOf 0), dayOf (doyOf 0)) :=
      civilFromDays_eq (z + 1) (era + 1) 0 (by omega) (by omega)
    rw [h1, h2, hlast]
    have e1 : yoeOf 146096 = 399 := by decide
    have e2 : doyOf 146096 = 365 := by decide
    have e3 : adjOf 365 = 1 := by decide
    have e4 : monthOf 365 = 2 := by decide
    have e6 : yoeOf 0 = 0 := by decide
    have e7 : doyOf 0 = 0 := by decide
    have e8 : adjOf 0 = 0 := by decide
    have e9 : monthOf 0 = 3 := by decide
    rw [e1, e2, e3, e4, e6, e7, e8, e9]
    unfold tripleLt
    dsimp only
    omega
  · have hdoe1 : doe + 1 < 146097 := by omega
    have h2 : civilFromDays (z + 1) =
        (yoeOf (doe + 1) + era * 400 + adjOf (doyOf (doe + 1)), monthOf (doyOf (doe + 1)),
          dayOf (doyOf (doe + 1))) :=
      civilFromDays_eq (z + 1) era (doe + 1) (by omega) hdoe1
    rw [h1, h2]
    obtain ⟨y, hy, hge, hlt⟩ := doeCovered doe (by omega)
    have hyoe := yoeOf_eq doe y hy hge hlt
    obtain ⟨hdoy, hdoyle⟩ := doy_facts doe y hy hge hlt
    by_cases hstep : doe + 1 < upperDoe y
    · -- same year of era: the within-year tick
      have hyoe1 := yoeOf_eq (doe + 1) y hy (by omega) hstep
      obtain ⟨hdoy1, hdoyle1⟩ := doy_facts (doe + 1) y hy (by omega) hstep
      have hdsucc : doyOf (doe + 1) = doyOf doe + 1 := by omega
      have htick := doyTickCheck_all (doyOf doe) (by omega)
      unfold doyTickCheck at htick
      rw [decide_eq_true_eq] at htick
      rw [hyoe, hyoe1, hdsucc]
      exact tripleLt_shift (y + era * 400) _ _ _ _ _ _ htick
    · -- year of era boundary inside the era
      have heq : doe + 1 = upperDoe y := by omega
      have hy399 : y ≠ 399 := by
        intro h399
        subst h399
        unfold upperDoe at heq
        simp at heq
        omega
      have hup : upperDoe y = daysBeforeYoe (y + 1) := by
        unfold upperDoe
        rw [if_neg hy399]
      have hy1 : y + 1 < 400 := by
        rcases Nat.lt_or_ge (y + 1) 400 with h' | h'
        · exact h'
        · exact absurd (by omega : y = 399) hy399
      have hne := (yoeInterval_facts (y + 1) hy1).2.2.1
      have hyoe1 := yoeOf_eq (doe + 1) (y + 1) hy1 (by omega) (by omega)
      obtain ⟨hdoy1, _⟩ := doy_facts (doe + 1) (y + 1) hy1 (by omega) (by omega)
      have hdoy1z : doyOf (doe + 1) = 0 := by omega
      have hlen := yearLen_bounds y (by omega)
      have hdoyval : doyOf doe = 364 ∨ doyOf doe = 365 := by omega
      rw [hyoe, hyoe1, hdoy1z]
      have e8 : adjOf 0 = 0 := by decide
      have e9 : monthOf 0 = 3 := by decide
      rw [e8, e9]
      rcases hdoyval with hv | hv <;> rw [hv]
      · have ea : adjOf 364 = 1 := by decide
        have em : monthOf 364 = 2 := by decide
        rw [ea, em]
        unfold tripleLt
        dsimp only
        omega
      · have ea : adjOf 365 = 1 := by decide
        have em : monthOf 365 = 2 := by decide
        rw [ea, em]
        unfold tripleLt
        dsimp only
        omega

/-- Civil dates are strictly increasing in the day count. -/
theorem civil_mono {z1 z2 : Nat} (h : z1 < z2) :
    tripleLt (civilFromDays z1) (civilFromDays z2) := by
  obtain ⟨d, rfl⟩ : ∃ d, z2 = z1 + d + 1 := ⟨z2 - z1 - 1, by omega⟩
  clear h
  induction d with
  | zero => exact civil_succ z1
  | succ d ih => exact tripleLt_trans ih (civil_succ (z1 + d + 1))

theorem adjOf_le_one (doy : Nat) : adjOf doy ≤ 1 := by
  unfold adjOf
  split <;> omega

theorem adjOf_eq_zero {doy : Nat} (h : mpOf doy < 10) : adjOf doy = 0 := by
  unfold adjOf monthOf
  rw [if_pos h, if_neg (by omega)]

theorem daysInMonthMax_le (mo : Nat) : daysInMonthMax mo ≤ 31 := by
  unfold daysInMonthMax
  split <;> omega

/-- Bounds of the civil components in the CPython-representable range. -/
theorem civil_facts (z : Nat) (hz : z ≤ 2932896) :
    (civilFromDays z).1 ≤ 9999 ∧ 1 ≤ (civilFromDays z).2.1 ∧ (civilFromDays z).2.1 ≤ 12 ∧
    1 ≤ (civilFromDays z).2.2 ∧ (civilFromDays z).2.2 ≤ daysInMonthMax (civilFromDays z).2.1 := by
  have hdoe : (z + 719468) % 146097 < 146097 := Nat.mod_lt _ (by omega)
  have h1 := civilFromDays_eq z ((z + 719468) / 146097) ((z + 719468) % 146097) (by omega) hdoe
  set era := (z + 719468) / 146097 with hera
  set doe := (z + 719468) % 146097 with hdoedef
  obtain ⟨y, hy, hge, hlt⟩ := doeCovered doe hdoe
  have hyoe := yoeOf_eq doe y hy hge hlt
  obtain ⟨hdoy, hdoyle⟩ := doy_facts doe y hy hge hlt
  obtain ⟨hm1, hm2, hd1, hd2, hiff⟩ := doyRange_facts (doyOf doe) hdoyle
  rw [h1]
  refine ⟨?_, hm1, hm2, hd1, hd2⟩
  have hadj := adjOf_le_one (doyOf doe)
  have heratop : era ≤ 24 := by omega
  by_cases h24 : era = 24
  · have hdoesm : doe ≤ 146036 := by omega
    by_cases hy399 : y = 399
    · subst hy399
      have hg : daysBeforeYoe 399 = 145731 := by decide
      have hdoy306 : doyOf doe < 306 := by omega
      have hadj0 : adjOf (doyOf doe) = 0 := adjOf_eq_zero (hiff.2 hdoy306)
      omega
    · have : y ≤ 398 := by omega
      omega
  · have : era ≤ 23 := by omega
    have : yoeOf doe = y := hyoe
    omega

/-- Bounds of every datetime field in the representable range. -/
theorem dtFromMicros_fields (m : Nat) (hm : m < pyMaxMicros) :
    (dtFromMicros m).year ≤ 9999 ∧ 1 ≤ (dtFromMicros m).month ∧ (dtFromMicros m).month ≤ 12 ∧
    1 ≤ (dtFromMicros m).day ∧ (dtFromMicros m).day ≤ daysInMonthMax (dtFromMicros m).month ∧
    (dtFromMicros m).hour ≤ 23 ∧ (dtFromMicros m).minute ≤ 59 ∧
    (dtFromMicros m).second ≤ 59 ∧ (dtFromMicros m).micro ≤ 999999 := by
  have hmax : pyMaxMicros = 253402300800000000 := rfl
  have hday : microsPerDay = 86400000000 := rfl
  have hz : m / microsPerDay ≤ 2932896 := by
    rw [hday]
    omega
  have hciv := civil_facts (m / microsPerDay) hz
  have htod : m % microsPerDay < 86400000000 := by
    rw [hday]
    omega
  unfold dtFromMicros
  dsimp only
  exact ⟨hciv.1, hciv.2.1, hciv.2.2.1, hciv.2.2.2.1, hciv.2.2.2.2, by omega, by omega,
    by omega, by omega⟩

/-- Chronological order of clock readings gives lexicographic order of the
datetime fields. -/
theorem dtFromMicros_lex {m1 m2 : Nat} (h : m1 < m2) :
    dtLex (dtFromMicros m1) (dtFromMicros m2) := by
  have hday : microsPerDay = 86400000000 := rfl
  unfold dtFromMicros dtLex
  dsimp only
  rw [hday]
  by_cases hdays : m1 / 86400000000 < m2 / 86400000000
  · have hc := civil_mono hdays
    unfold tripleLt at hc
    omega
  · have heq : m1 / 86400000000 = m2 / 86400000000 := by omega
    rw [heq]
    omega

/-! ## Lexicographic order of rendered timestamps -/

theorem d2cDigit_lt {a b : Nat} (ha : a < 10) (hb : b < 10) (h : a < b) :
    d2cDigit a < d2cDigit b := by
  interval_cases a <;> interval_cases b <;> first
    | exact absurd h (by omega)
    | decide

theorem d2c_lt {a b : Nat} (h : a % 10 < b % 10) : d2c a < d2c b := by
  unfold d2c
  exact d2cDigit_lt (Nat.mod_lt _ (by omega)) (Nat.mod_lt _ (by omega)) h

theorem d2c_eq_of {a b : Nat} (h : a % 10 = b % 10) : d2c a = d2c b := by
  unfold d2c
  rw [h]

theorem listLt_append_left {xs ys : List Char} (h : List.lt xs ys)
    (hlen : xs.length = ys.length) (a b : List Char) : List.lt (xs ++ a) (ys ++ b) := by
  induction h with
  | nil c cs => simp at hlen
  | head as bs hab => exact List.lt.head _ _ hab
  | tail h1 h2 h3 ih => exact List.lt.tail h1 h2 (ih (by simpa using hlen))

theorem listLt_append_right (p : List Char) {s1 s2 : List Char} (h : List.lt s1 s2) :
    List.lt (p ++ s1) (p ++ s2) := by
  induction p with
  | nil => exact h
  | cons c cs ih => exact List.lt.tail (lt_irrefl c) (lt_irrefl c) ih

theorem twoDigits_lt {a b : Nat} (h : a < b) (hb : b ≤ 99) :
    List.lt (twoDigits a) (twoDigits b) := by
  unfold twoDigits
  by_cases h1 : a / 10 < b / 10
  · exact List.lt.head _ _ (d2c_lt (by omega))
  · rw [d2c_eq_of (show (a / 10) % 10 = (b / 10) % 10 by omega)]
    exact List.lt.tail (lt_irrefl _) (lt_irrefl _) (List.lt.head _ _ (d2c_lt (by omega)))

theorem fourDigits_lt {a b : Nat} (h : a < b) (hb : b ≤ 9999) :
    List.lt (fourDigits a) (fourDigits b) := by
  unfold fourDigits
  by_cases h3 : a / 1000 < b / 1000
  · exact List.lt.head _ _ (d2c_lt (by omega))
  · rw [d2c_eq_of (show (a / 1000) % 10 = (b / 1000) % 10 by omega)]
    refine List.lt.tail (lt_irrefl _) (lt_irrefl _) ?_
    by_cases h2 : a / 100 < b / 100
    · exact List.lt.head _ _ (d2c_lt (by omega))
    · rw [d2c_eq_of (show (a / 100) % 10 = (b / 100) % 10 by omega)]
      refine List.lt.tail (lt_irrefl _) (lt_irrefl _) ?_
      by_cases h1 : a / 10 < b / 10
      · exact List.lt.head _ _ (d2c_lt (by omega))
      · rw [d2c_eq_of (show (a / 10) % 10 = (b / 10) % 10 by omega)]
        exact List.lt.tail (lt_irrefl _) (lt_irrefl _) (List.lt.head _ _ (d2c_lt (by omega)))

theorem sixDigits_lt {a b : Nat} (h : a < b) (hb : b ≤ 999999) :
    List.lt (sixDigits a) (sixDigits b) := by
  unfold sixDigits
  by_cases h5 : a / 100000 < b / 100000
  · exact List.lt.head _ _ (d2c_lt (by omega))
  · rw [d2c_eq_of (show (a / 100000) % 10 = (b / 100000) % 10 by omega)]
    refine List.lt.tail (lt_irrefl _) (lt_irrefl _) ?_
    by_cases h4 : a / 10000 < b / 10000
    · exact List.lt.head _ _ (d2c_lt (by omega))
    · rw [d2c_eq_of (show (a / 10000) % 10 = (b / 10000) % 10 by omega)]
      refine List.lt.tail (lt_irrefl _) (lt_irrefl _) ?_
      by_cases h3 : a / 1000 < b / 1000
      · exact List.lt.head _ _ (d2c_lt (by omega))
      · rw [d2c_eq_of (show (a / 1000) % 10 = (b / 1000) % 10 by omega)]
        refine List.lt.tail (lt_irrefl _) (lt_irrefl _) ?_
        by_cases h2 : a / 100 < b / 100
        · exact List.lt.head _ _ (d2c_lt (by omega))
        · rw [d2c_eq_of (show (a / 100) % 10 = (b / 100) % 10 by omega)]
          refine List.lt.tail (lt_irrefl _) (lt_irrefl _) ?_
          by_cases h1 : a / 10 < b / 10
          · exact List.lt.head _ _ (d2c_lt (by omega))
          · rw [d2c_eq_of (show (a / 10) % 10 = (b / 10) % 10 by omega)]
            exact List.lt.tail (lt_irrefl _) (lt_irrefl _)
              (List.lt.head _ _ (d2c_lt (by omega)))

theorem isoChars_lt {a b : DateTimeUTC}
    (hby : b.year ≤ 9999) (hbmo : b.month ≤ 99) (hbd : b.day ≤ 99) (hbh : b.hour ≤ 99)
    (hbmi : b.minute ≤ 99) (hbs : b.second ≤ 99) (hbu : b.micro ≤ 999999)
    (h : dtLex a b) : List.lt (isoChars a) (isoChars b) := by
  unfold isoChars
  rcases h with hy | ⟨hy, h⟩
  · exact listLt_append_left (fourDigits_lt hy hby) rfl _ _
  rw [hy]
  refine listLt_append_right _ (List.lt.tail (lt_irrefl _) (lt_irrefl _) ?_)
  rcases h with hmo | ⟨hmo, h⟩
  · exact listLt_append_left (twoDigits_lt hmo hbmo) rfl _ _
  rw [hmo]
  refine listLt_append_right _ (List.lt.tail (lt_irrefl _) (lt_irrefl _) ?_)
  rcases h with hd | ⟨hd, h⟩
  · exact listLt_append_left (twoDigits_lt hd hbd) rfl _ _
  rw [hd]
  refine listLt_append_right _ (List.lt.tail (lt_irrefl _) (lt_irrefl _) ?_)
  rcases h with hh | ⟨hh, h⟩
  · exact listLt_append_left (twoDigits_lt hh hbh) rfl _ _
  rw [hh]
  refine listLt_append_right _ (List.lt.tail (lt_irrefl _) (lt_irrefl _) ?_)
  rcases h with hmi | ⟨hmi, h⟩
  · exact listLt_append_left (twoDigits_lt hmi hbmi) rfl _ _
  rw [hmi]
  refine listLt_append_right _ (List.lt.tail (lt_irrefl _) (lt_irrefl _) ?_)
  rcases h with hs | ⟨hs, hu⟩
  · exact listLt_append_left (twoDigits_lt hs hbs) rfl _ _
  rw [hs]
  refine listLt_append_right _ ?_
  have hbz : ¬ b.micro = 0 := by omega
  rw [if_neg hbz]
  by_cases haz : a.micro = 0
  · rw [if_pos haz]
    exact List.lt.head _ _ (by decide)
  · rw [if_neg haz]
    exact List.lt.tail (lt_irrefl _) (lt_irrefl _)
      (listLt_append_left (sixDigits_lt hu hbu) rfl _ _)

/-- isoformat strings of representable clock readings are strictly increasing
in the clock reading (so the SQL text order of created_at is chronological). -/
theorem isoFromMicros_lt {m1 m2 : Nat} (h : m1 < m2) (hb : m2 < pyMaxMicros) :
    isoFromMicros m1 < isoFromMicros m2 := by
  have h1 := dtFromMicros_fields m1 (lt_trans h hb)
  have h2 := dtFromMicros_fields m2 hb
  have hd1 := daysInMonthMax_le (dtFromMicros m1).month
  have hd2 := daysInMonthMax_le (dtFromMicros m2).month
  rw [String.lt_iff_toList_lt]
  show List.Lex (· < ·) (isoChars (dtFromMicros m1)) (isoChars (dtFromMicros m2))
  exact (List.lt_iff_lex_lt _ _).mp
    (isoChars_lt h2.1 (by omega) (by omega) (by omega) (by omega) (by omega) (by omega)
      (dtFromMicros_lex h))

/-! ## The byte comparison used by the ORDER BY embedding -/

theorem lexLtB_irrefl (l : List Char) : lexLtB l l = false := by
  induction l with
  | nil => rfl
  | cons c cs ih =>
    unfold lexLtB
    rw [if_neg (lt_irrefl c), if_neg (lt_irrefl c)]
    exact ih

theorem lexLtB_asymm : ∀ {a b : List Char}, lexLtB a b = true → lexLtB b a = false
  | [], [], h => by simp [lexLtB] at h
  | [], _ :: _, _ => rfl
  | _ :: _, [], h => by simp [lexLtB] at h
  | a :: as, b :: bs, h => by
    unfold lexLtB at h ⊢
    by_cases hab : a < b
    · rw [if_neg (asymm hab), if_pos hab]
    · rw [if_neg hab] at h
      by_cases hba : b < a
      · rw [if_pos hba] at h
        exact absurd h (by simp)
      · rw [if_neg hba] at h
        rw [if_neg hba, if_neg hab]
        exact lexLtB_asymm h

theorem lexLtB_trans : ∀ {a b c : List Char},
    lexLtB a b = true → lexLtB b c = true → lexLtB a c = true
  | [], [], _, h1, _ => by simp [lexLtB] at h1
  | [], _ :: _, [], _, h2 => by simp [lexLtB] at h2
  | [], _ :: _, _ :: _, _, _ => rfl
  | _ :: _, [], _, h1, _ => by simp [lexLtB] at h1
  | _ :: _, _ :: _, [], _, h2 => by simp [lexLtB] at h2
  | a :: as, b :: bs, c :: cs, h1, h2 => by
    unfold lexLtB at h1 h2 ⊢
    by_cases hab : a < b
    · by_cases hbc : b < c
      · rw [if_pos (lt_trans hab hbc)]
      · by_cases hcb : c < b
        · rw [if_neg hbc, if_pos hcb] at h2
          exact absurd h2 (by simp)
        · have hbceq : b = c := le_antisymm (le_of_not_lt hcb) (le_of_not_lt hbc)
          rw [if_pos (hbceq ▸ hab)]
    · by_cases hba : b < a
      · rw [if_neg hab, if_pos hba] at h1
        exact absurd h1 (by simp)
      · have habeq : a = b := le_antisymm (le_of_not_lt hba) (le_of_not_lt hab)
        subst habeq
        rw [if_neg hab, if_neg hba] at h1
        by_cases hac : a < c
        · rw [if_pos hac]
        · by_cases hca : c < a
          · rw [if_neg hac, if_pos hca] at h2
            exact absurd h2 (by simp)
          · rw [if_neg hac, if_neg hca] at h2 ⊢
            exact lexLtB_trans h1 h2

theorem lexLtB_of_listLt : ∀ {a b : List Char}, List.lt a b → lexLtB a b = true := by
  intro a b h
  induction h with
  | nil c cs => rfl
  | head as bs hab =>
    unfold lexLtB
    rw [if_pos hab]
  | tail h1 h2 h3 ih =>
    unfold lexLtB
    rw [if_neg h1, if_neg h2]
    exact ih

/-- The core list-level monotonicity of the rendered timestamps. -/
theorem isoChars_listLt {m1 m2 : Nat} (h : m1 < m2) (hb : m2 < pyMaxMicros) :
    List.lt (isoChars (dtFromMicros m1)) (isoChars (dtFromMicros m2)) := by
  have h2 := dtFromMicros_fields m2 hb
  have hd2 := daysInMonthMax_le (dtFromMicros m2).month
  exact isoChars_lt h2.1 (by omega) (by omega) (by omega) (by omega) (by omega) (by omega)
    (dtFromMicros_lex h)

/-- Under the SQLite byte order, timestamps of later clock readings compare
strictly greater. -/
theorem createdLt_iso {m1 m2 : Nat} (h : m1 < m2) (hb : m2 < pyMaxMicros) :
    createdLt (isoFromMicros m1) (isoFromMicros m2) = true :=
  lexLtB_of_listLt (isoChars_listLt h hb)

/-- A timestamp of a reading no later than another never compares above it:
the rendered created_at is no earlier than the rendered call start. -/
theorem createdLt_iso_false {m1 m2 : Nat} (h : m1 ≤ m2) (hb : m2 < pyMaxMicros) :
    createdLt (isoFromMicros m2) (isoFromMicros m1) = false := by
  rcases Nat.lt_or_ge m1 m2 with hlt | hge
  · exact lexLtB_asymm (createdLt_iso hlt hb)
  · have heq : m1 = m2 := by omega
    subst heq
    exact lexLtB_irrefl _

/-- Rendered timestamps are injective on the representable range. -/
theorem isoFromMicros_inj {m1 m2 : Nat} (h1 : m1 < pyMaxMicros) (h2 : m2 < pyMaxMicros)
    (he : isoFromMicros m1 = isoFromMicros m2) : m1 = m2 := by
  by_contra hne
  rcases Nat.lt_or_ge m1 m2 with hlt | hge
  · have := createdLt_iso hlt h2
    rw [he] at this
    rw [show createdLt (isoFromMicros m2) (isoFromMicros m2) = false from lexLtB_irrefl _] at this
    exact absurd this (by simp)
  · have hlt : m2 < m1 := by omega
    have := createdLt_iso hlt h1
    rw [he] at this
    rw [show createdLt (isoFromMicros m2) (isoFromMicros m2) = false from lexLtB_irrefl _] at this
    exact absurd this (by simp)

/-- Strictly smaller under the byte order means strictly earlier. -/
theorem micros_lt_of_createdLt {m1 m2 : Nat} (h1 : m1 < pyMaxMicros) (h2 : m2 < pyMaxMicros)
    (h : createdLt (isoFromMicros m1) (isoFromMicros m2) = true) : m1 < m2 := by
  rcases Nat.lt_trichotomy m1 m2 with hlt | heq | hgt
  · exact hlt
  · subst heq
    rw [show createdLt (isoFromMicros m1) (isoFromMicros m1) = false from lexLtB_irrefl _] at h
    exact absurd h (by simp)
  · have := lexLtB_asymm (createdLt_iso hgt h1)
    rw [show lexLtB (isoFromMicros m1).data (isoFromMicros m2).data =
      createdLt (isoFromMicros m1) (isoFromMicros m2) from rfl] at this
    rw [this] at h
    exact absurd h (by simp)

/-! ## Parsing back the rendered timestamps -/

theorem readDigit_d2cDigit (j : Nat) (hj : j < 10) : readDigit (d2cDigit j) = some j := by
  interval_cases j <;> rfl

theorem readDigit_d2c (n : Nat) : readDigit (d2c n) = some (n % 10) := by
  unfold d2c
  exact readDigit_d2cDigit (n % 10) (Nat.mod_lt _ (by omega))

theorem read2_twoDigits (n : Nat) (hn : n ≤ 99) (r : List Char) :
    read2 (twoDigits n ++ r) = some (n, r) := by
  show read2 (d2c (n / 10) :: d2c n :: r) = some (n, r)
  unfold read2
  dsimp only
  rw [readDigit_d2c, readDigit_d2c]
  dsimp only
  rw [show n / 10 % 10 * 10 + n % 10 = n by omega]

theorem read4_fourDigits (n : Nat) (hn : n ≤ 9999) (r : List Char) :
    read4 (fourDigits n ++ r) = some (n, r) := by
  show read4 (d2c (n / 1000) :: d2c (n / 100) :: d2c (n / 10) :: d2c n :: r) = some (n, r)
  unfold read4
  dsimp only
  rw [readDigit_d2c, readDigit_d2c, readDigit_d2c, readDigit_d2c]
  dsimp only
  rw [show n / 1000 % 10 * 1000 + n / 100 % 10 * 100 + n / 10 % 10 * 10 + n % 10 = n by omega]

theorem read6_sixDigits (n : Nat) (hn : n ≤ 999999) (r : List Char) :
    read6 (sixDigits n ++ r) = some (n, r) := by
  show read6 (d2c (n / 100000) :: d2c (n / 10000) :: d2c (n / 1000) :: d2c (n / 100) ::
    d2c (n / 10) :: d2c n :: r) = some (n, r)
  unfold read6
  dsimp only
  rw [readDigit_d2c, readDigit_d2c, readDigit_d2c, readDigit_d2c, readDigit_d2c, readDigit_d2c]
  dsimp only
  rw [show n / 100000 % 10 * 100000 + n / 10000 % 10 * 10000 + n / 1000 % 10 * 1000 +
    n / 100 % 10 * 100 + n / 10 % 10 * 10 + n % 10 = n by omega]

theorem expectChar_cons (c : Char) (r : List Char) : expectChar c (c :: r) = some r := by
  unfold expectChar
  dsimp only
  rw [if_pos rfl]

theorem parseDatePart_iso (y mo d : Nat) (hy : y ≤ 9999) (hmo : mo ≤ 99) (hd : d ≤ 99)
    (r : List Char) :
    parseDatePart (fourDigits y ++ '-' :: (twoDigits mo ++ '-' :: (twoDigits d ++ r))) =
      some (y, mo, d, r) := by
  unfold parseDatePart
  rw [read4_fourDigits y hy]
  dsimp only
  rw [expectChar_cons]
  dsimp only
  rw [read2_twoDigits mo hmo]
  dsimp only
  rw [expectChar_cons]
  dsimp only
  rw [read2_twoDigits d hd]

theorem parseFrac_iso (us : Nat) (hus : us ≤ 999999) (r : List Char) :
    parseFrac ((if us = 0 then [] else '.' :: sixDigits us) ++ '+' :: r) =
      some (us, '+' :: r) := by
  by_cases hz : us = 0
  · rw [if_pos hz, hz]
    rfl
  · rw [if_neg hz]
    show parseFrac ('.' :: (sixDigits us ++ '+' :: r)) = some (us, '+' :: r)
    show read6 (sixDigits us ++ '+' :: r) = some (us, '+' :: r)
    exact read6_sixDigits us hus _

theorem parseTimePart_iso (h mi s us : Nat) (hh : h ≤ 99) (hmi : mi ≤ 99) (hs : s ≤ 99)
    (hus : us ≤ 999999) (r : List Char) :
    parseTimePart ('T' :: (twoDigits h ++ ':' :: (twoDigits mi ++ ':' :: (twoDigits s ++
      ((if us = 0 then [] else '.' :: sixDigits us) ++ '+' :: r))))) =
      some (h, mi, s, us, '+' :: r) := by
  unfold parseTimePart
  rw [expectChar_cons]
  dsimp only
  rw [read2_twoDigits h hh]
  dsimp only
  rw [expectChar_cons]
  dsimp only
  rw [read2_twoDigits mi hmi]
  dsimp only
  rw [expectChar_cons]
  dsimp only
  rw [read2_twoDigits s hs]
  dsimp only
  rw [parseFrac_iso us hus]

/-- The parser recovers exactly the rendered datetime (structural core). -/
theorem parseIsoUtcL_iso (dt : DateTimeUTC) (hy : dt.year ≤ 9999) (hmo : dt.month ≤ 99)
    (hd : dt.day ≤ 99) (hh : dt.hour ≤ 99) (hmi : dt.minute ≤ 99) (hs : dt.second ≤ 99)
    (hus : dt.micro ≤ 999999) (hro : dtRangesOk dt = true) :
    parseIsoUtcL (isoChars dt) = some dt := by
  obtain ⟨y, mo, d, h, mi, s, us⟩ := dt
  unfold isoChars parseIsoUtcL
  dsimp only at hy hmo hd hh hmi hs hus ⊢
  rw [parseDatePart_iso y mo d hy hmo hd]
  dsimp only
  rw [parseTimePart_iso h mi s us hh hmi hs hus]
  dsimp only
  rw [show expectUtcSuffix ['+', '0', '0', ':', '0', '0'] = some () from rfl]
  dsimp only
  rw [if_pos hro]

/-- The parser recovers exactly the datetime that isoformat rendered. -/
theorem parse_iso_roundtrip (m : Nat) (hm : m < pyMaxMicros) :
    parseIsoUtc (isoFromMicros m) = some (dtFromMicros m) := by
  obtain ⟨hy, hmo1, hmo2, hd1, hd2, hh, hmi, hs, hus⟩ := dtFromMicros_fields m hm
  have hdmax := daysInMonthMax_le (dtFromMicros m).month
  have hro : dtRangesOk (dtFromMicros m) = true := by
    unfold dtRangesOk
    simp only [Bool.and_eq_true, decide_eq_true_eq]
    exact ⟨⟨⟨⟨⟨⟨⟨hmo1, hmo2⟩, hd1⟩, hd2⟩, hh⟩, hmi⟩, hs⟩, hus⟩
  exact parseIsoUtcL_iso (dtFromMicros m) hy (by omega) (by omega) (by omega) (by omega)
    (by omega) (by omega) hro

/-- The stored created_at strings are valid aware UTC ISO-8601 timestamps. -/
theorem isValid_iso (m : Nat) (hm : m < pyMaxMicros) :
    isValidIsoUtc (isoFromMicros m) = true := by
  unfold isValidIsoUtc
  rw [parse_iso_roundtrip m hm]
  rfl

/-! ## Sorting facts for the ORDER BY embedding -/

theorem createdLt_asymm {a b : String} (h : createdLt a b = true) : createdLt b a = false :=
  lexLtB_asymm h

theorem createdLt_trans {a b c : String} (h1 : createdLt a b = true)
    (h2 : createdLt b c = true) : createdLt a c = true :=
  lexLtB_trans h1 h2

theorem insertCreatedDesc_perm (t : Ticket) (l : List Ticket) :
    (insertCreatedDesc t l).Perm (t :: l) := by
  induction l with
  | nil => exact List.Perm.refl _
  | cons h r ih =>
    unfold insertCreatedDesc
    by_cases hc : createdLt h.created_at t.created_at = true
    · rw [if_pos hc]
    · rw [if_neg hc]
      exact (ih.cons h).trans (List.Perm.swap t h r)

theorem orderByCreatedDesc_perm (l : List Ticket) : (orderByCreatedDesc l).Perm l := by
  induction l with
  | nil => exact List.Perm.refl _
  | cons t r ih => exact (insertCreatedDesc_perm t _).trans (ih.cons t)

theorem insertCreatedDesc_pairwise (t : Ticket) (l : List Ticket)
    (hl : l.Pairwise (fun a b => createdLt a.created_at b.created_at = false)) :
    (insertCreatedDesc t l).Pairwise
      (fun a b => createdLt a.created_at b.created_at = false) := by
  induction l with
  | nil => simp [insertCreatedDesc]
  | cons h r ih =>
    obtain ⟨hhr, hr⟩ := List.pairwise_cons.mp hl
    unfold insertCreatedDesc
    by_cases hc : createdLt h.created_at t.created_at = true
    · rw [if_pos hc]
      refine List.pairwise_cons.mpr ⟨?_, hl⟩
      intro x hx
      rcases List.mem_cons.mp hx with rfl | hx
      · exact createdLt_asymm hc
      · cases hb : createdLt t.created_at x.created_at
        · rfl
        · have htrans := createdLt_trans hc hb
          rw [hhr x hx] at htrans
          exact absurd htrans (by simp)
    · rw [if_neg hc]
      refine List.pairwise_cons.mpr ⟨?_, ih hr⟩
      intro x hx
      have hx' : x ∈ t :: r := (insertCreatedDesc_perm t r).subset hx
      rcases List.mem_cons.mp hx' with rfl | hx'
      · cases hb : createdLt h.created_at x.created_at
        · rfl
        · exact absurd hb hc
      · exact hhr x hx'

theorem orderByCreatedDesc_pairwise (l : List Ticket) :
    (orderByCreatedDesc l).Pairwise
      (fun a b => createdLt a.created_at b.created_at = false) := by
  induction l with
  | nil => simp [orderByCreatedDesc]
  | cons t r ih => exact insertCreatedDesc_pairwise t _ ih

/-! ## Claim C1 -/

/-- C1: the single-ticket read of shared.py (reached through the app_new.py
GET /tickets/id endpoint) applies no owner filter: for the stored ticket of
alice, a request by bob returns the full record instead of not-found, while
the app.py repository variant with the owner filter correctly returns none.
This evaluates the code at the failing input of the ownership claim. -/
theorem c1_shared_get_skips_owner_filter :
    AppNew.get_ticket_endpoint [aliceTicket] "t1" "bob" = some aliceTicket ∧
    aliceTicket.user_id ≠ "bob" ∧
    App.get_ticket [aliceTicket] "t1" (some "bob") = none ∧
    Chalice.get_ticket [aliceTicket] "t1" "bob" = none ∧
    SimpleApp.get_ticket_query [aliceTicket] "t1" "bob" = none := by
  refine ⟨rfl, by decide, rfl, rfl, rfl⟩

/-! ## Claim C2 -/

/-- C2 counterexample: on one ticket of each status for u1, the chalicelib
db.py get_metrics variant reports open=1 (it counts only status open, not
in_progress), so the claimed total=4, open=2, resolved=2 fails on this
variant. -/
theorem c2_chalice_metrics_counterexample :
    Chalice.get_metrics fourStatusTable "u1" =
      { total := 4, open_tickets := 1, resolved := 2 } ∧
    Chalice.get_metrics fourStatusTable "u1" ≠
      { total := 4, open_tickets := 2, resolved := 2 } := by
  refine ⟨rfl, by decide⟩

/-- C2 amended: the app.py get_dashboard_metrics variant does count as claimed
for every table and every truthy user id: total is the number of the user
tickets, open counts statuses open and in_progress, resolved counts resolved
and closed; on the four-status fixture it reports total=4, open=2, resolved=2.
The chalicelib variant differs (see the counterexample). -/
theorem c2_app_metrics (tickets : List Ticket) (u : String) (hu : u ≠ "") :
    App.get_dashboard_metrics tickets (some u) =
      { total := tickets.countP (fun t => t.user_id = u)
        open_tickets := tickets.countP (fun t =>
          t.user_id = u ∧ (t.status = "open" ∨ t.status = "in_progress"))
        resolved := tickets.countP (fun t =>
          t.user_id = u ∧ (t.status = "resolved" ∨ t.status = "closed")) } ∧
    App.get_dashboard_metrics fourStatusTable (some "u1") =
      { total := 4, open_tickets := 2, resolved := 2 } := by
  constructor
  · have htr : optTruthy (some u) = true := by
      simp [optTruthy, strTruthy, hu]
    simp only [App.get_dashboard_metrics, htr, if_true, List.countP_eq_length_filter,
      Option.getD_some]
    congr 1
    · exact congrArg List.length (List.filter_congr (fun t _ => by
        by_cases h1 : t.user_id = u <;> by_cases h2 : t.status = "open" <;>
          by_cases h3 : t.status = "in_progress" <;> simp [h1, h2, h3]))
    · exact congrArg List.length (List.filter_congr (fun t _ => by
        by_cases h1 : t.user_id = u <;> by_cases h2 : t.status = "resolved" <;>
          by_cases h3 : t.status = "closed" <;> simp [h1, h2, h3]))
  · decide

/-! ## Claim C3 -/

/-- Decoding a run of 4k letters A yields 3k zero bytes. -/
theorem decodeChunks_replicateA :
    ∀ k, decodeChunks (List.replicate (4 * k) 'A') = some (List.replicate (3 * k) 0)
  | 0 => rfl
  | k + 1 => by
    have hrep : List.replicate (4 * (k + 1)) 'A' =
        'A' :: 'A' :: 'A' :: 'A' :: List.replicate (4 * k) 'A' := by
      have h : 4 * (k + 1) = 4 + 4 * k := by ring
      rw [h, List.replicate_add]
      rfl
    have hrep3 : List.replicate (3 * (k + 1)) (0 : Nat) =
        0 :: 0 :: 0 :: List.replicate (3 * k) 0 := by
      have h : 3 * (k + 1) = 3 + 3 * k := by ring
      rw [h, List.replicate_add]
      rfl
    have hA : b64Val 'A' = some 0 := rfl
    rw [hrep, hrep3]
    simp only [decodeChunks, hA, Option.bind_eq_bind, Option.some_bind,
      decodeChunks_replicateA k]
    rfl

/-- b64decode of a run of 4k letters A succeeds with 3k bytes. -/
theorem b64decode_replicateA (k : Nat) :
    b64decode ⟨List.replicate (4 * k) 'A'⟩ = some (List.replicate (3 * k) 0) := by
  have hkept : b64kept ⟨List.replicate (4 * k) 'A'⟩ = List.replicate (4 * k) 'A' := by
    unfold b64kept
    exact List.filter_replicate_of_pos (by decide)
  have hbody : b64body (List.replicate (4 * k) 'A') = List.replicate (4 * k) 'A' := by
    unfold b64body
    rw [List.takeWhile_replicate]
    simp
  have htail : b64tail (List.replicate (4 * k) 'A') = [] := by
    unfold b64tail
    rw [hbody, List.length_replicate]
    exact List.drop_of_length_le (by simp)
  unfold b64decode b64decodeL
  rw [hkept, hbody, htail]
  rw [if_pos ⟨rfl, by simp, by simp [Nat.mul_mod_right]⟩]
  exact decodeChunks_replicateA k

/-- The oversized blob keeps its value through afterLastComma. -/
theorem afterLastComma_replicateA (n : Nat) :
    afterLastComma ⟨List.replicate n 'A'⟩ = ⟨List.replicate n 'A'⟩ := by
  unfold afterLastComma
  refine congrArg String.mk ?_
  rw [show (String.mk (List.replicate n 'A')).data = List.replicate n 'A' from rfl,
    List.reverse_replicate, List.takeWhile_replicate]
  simp

/-- Any decodable blob is stored successfully by storage.py (no size check
exists on this path). -/
theorem store_base64_blob_ok_of_decode (cfg : Chalice.StoreCfg) (blob f tok : String)
    (bytes : List Nat) (hdec : b64decode (afterLastComma blob) = some bytes) :
    okB (Chalice.store_base64_blob cfg blob f tok) = true := by
  simp only [Chalice.store_base64_blob, hdec]
  split <;> rfl

/-- C3 counterexample: the chalicelib storage.py variant enforces no size
check: a blob whose decoded size is 10485762 bytes, strictly above the
default 10 MiB limit, is stored successfully. -/
theorem c3_chalice_no_size_check_counterexample :
    okB (Chalice.store_base64_blob { bucket := "b", region := "r", offline := true }
      oversizedBlob "payload.bin" "tok0") = true ∧
    (b64decode oversizedBlob).map List.length = some 10485762 ∧
    10485762 > Shared.defaultMaxFileSize := by
  have hdec : b64decode oversizedBlob = some (List.replicate 10485762 0) := by
    have h1 : b64decode ⟨List.replicate (4 * 3495254) 'A'⟩ =
        some (List.replicate (3 * 3495254) 0) := b64decode_replicateA 3495254
    have h2 : (4 : Nat) * 3495254 = 13981016 := by norm_num
    have h3 : (3 : Nat) * 3495254 = 10485762 := by norm_num
    rw [h2, h3] at h1
    exact h1
  have hlast : afterLastComma oversizedBlob = oversizedBlob := afterLastComma_replicateA 13981016
  have hdec2 : b64decode (afterLastComma oversizedBlob) = some (List.replicate 10485762 0) := by
    rw [hlast]
    exact hdec
  refine ⟨store_base64_blob_ok_of_decode _ _ _ _ _ hdec2, ?_,
    by norm_num [Shared.defaultMaxFileSize]⟩
  rw [hdec, Option.map_some', List.length_replicate]

/-- C3 amended: the shared.py StorageManager (and the identical app.py
ExtendedTicketRepository logic) enforces the limit strictly: on a decodable
payload the upload fails with the size error exactly when the decoded size
strictly exceeds MAX_FILE_SIZE, succeeds when it is at most the limit, and
the default limit is 10485760 bytes; the storage.py variant has no such
check (see the counterexample). -/
theorem c3_size_gate (cfg : Shared.StorageCfg) (data name tok : String) (bytes : List Nat)
    (hdec : b64decode (Shared.strippedPayload data) = some bytes) :
    (Shared.upload_file cfg data name tok =
        .error (.payloadTooLarge bytes.length cfg.max_file_size) ↔
      bytes.length > cfg.max_file_size) ∧
    (bytes.length ≤ cfg.max_file_size → okB (Shared.upload_file cfg data name tok) = true) ∧
    Shared.defaultMaxFileSize = 10485760 := by
  have hbody : Shared.upload_file cfg data name tok =
      Shared.upload_store cfg bytes name tok := by
    unfold Shared.upload_file Shared.upload_body
    rw [hdec]
  rw [hbody]
  unfold Shared.upload_store
  by_cases hgt : bytes.length > cfg.max_file_size
  · rw [if_pos hgt]
    exact ⟨⟨fun _ => hgt, fun _ => rfl⟩, fun hle => absurd hgt (by omega), rfl⟩
  · rw [if_neg hgt]
    refine ⟨⟨fun h => ?_, fun h => absurd h hgt⟩, fun _ => ?_, rfl⟩
    · split at h <;> exact Except.noConfusion h
    · split <;> rfl

/-- C3 witness: with a 3-byte limit, the 3-byte payload QUJD is stored and the
4-byte payload QUJDRA== is rejected as too large; the boundary is strict. -/
theorem c3_size_gate_witness :
    ((Shared.upload_file tinyCfg "QUJD" "a.txt" "u" =
        .error (.payloadTooLarge 3 tinyCfg.max_file_size) ↔
      3 > tinyCfg.max_file_size) ∧
     (3 ≤ tinyCfg.max_file_size → okB (Shared.upload_file tinyCfg "QUJD" "a.txt" "u") = true)
       ∧ Shared.defaultMaxFileSize = 10485760) ∧
    ((Shared.upload_file tinyCfg "QUJDRA==" "a.txt" "u" =
        .error (.payloadTooLarge 4 tinyCfg.max_file_size) ↔
      4 > tinyCfg.max_file_size) ∧
     (4 ≤ tinyCfg.max_file_size → okB (Shared.upload_file tinyCfg "QUJDRA==" "a.txt" "u") = true)
       ∧ Shared.defaultMaxFileSize = 10485760) := by
  constructor
  · refine c3_size_gate tinyCfg "QUJD" "a.txt" "u" [65, 66, 67] (by decide)
  · refine c3_size_gate tinyCfg "QUJDRA==" "a.txt" "u" [65, 66, 67, 68] (by decide)

/-! ## Claim C4 -/

/-- C4 counterexample: the app_new.py create path catches a failed attachment
upload and silently creates the ticket without the attachment.  Here the
upload of the one-character attachment fails with a base64 error, yet the
endpoint inserts the ticket with attachment_url = none and reports success. -/
theorem c4_appnew_continues_without_attachment :
    Shared.upload_file localCfg "A" "f.txt" "u0" = .error .invalidBase64 ∧
    (AppNew.create_ticket_endpoint localCfg [] badAttachmentReq "demo-user" gen0).1 =
      [{ id := "t9", subject := "s", priority := "low", category := "c", description := "d"
         status := "open", user_id := "demo-user"
         created_at := "2024-02-02T00:00:00+00:00", attachment_url := none }] ∧
    (AppNew.create_ticket_endpoint localCfg [] badAttachmentReq "demo-user" gen0).2.attachment_url
      = none := by
  refine ⟨rfl, rfl, rfl⟩

/-- C4 amended: on the app.py create path a failed blob upload does surface
immediately: when the payload passes field and priority validation, the
attachment is present, and the upload fails, the endpoint returns the 400
error response and no state is returned. -/
theorem c4_app_upload_failure_surfaces (cfg : Shared.StorageCfg) (st : DbState)
    (req : CreateTicketRequest) (uid : String) (gen : GenValues) (e : Shared.UploadError)
    (hval : strTruthy req.subject ∧ strTruthy req.priority ∧ strTruthy req.category ∧
      strTruthy req.description)
    (hpri : req.priority ∈ ["low", "medium", "high", "P1"])
    (hatt : optTruthy req.attachment ∧ optTruthy req.attachment_name)
    (hup : Shared.upload_file cfg (req.attachment.getD "") (req.attachment_name.getD "")
      gen.upload_uuid = .error e) :
    App.create_ticket_endpoint cfg st req uid gen =
      .error ⟨400, "File upload failed: " ++ App.uploadErrorText e⟩ := by
  unfold App.create_ticket_endpoint
  rw [if_neg (not_not_intro hval), if_neg (not_not_intro hpri), if_pos hatt, hup]

/-- C4 witness: the amended theorem applied to the concrete failing upload. -/
theorem c4_app_upload_failure_surfaces_witness :
    App.create_ticket_endpoint localCfg ⟨[], [], []⟩ badAttachmentReq "u1" gen0 =
      .error ⟨400, "File upload failed: " ++ App.uploadErrorText .invalidBase64⟩ :=
  c4_app_upload_failure_surfaces localCfg ⟨[], [], []⟩ badAttachmentReq "u1" gen0
    .invalidBase64 (by decide) (by decide) (by decide) rfl

/-! ## Claim C7 -/

/-- C7 counterexample: the chalicelib db.py seed_demo_comment attributes the
acknowledgment comment to the requesting user (here alice), not to the
support-team sentinel, so the sentinel-author claim fails on this variant. -/
theorem c7_seed_comment_author_counterexample :
    Chalice.seed_demo_comment [] "t1" "alice" "c1" "2024-01-01T00:00:05+00:00" =
      [{ id := "c1", ticket_id := "t1", user_id := "alice"
         comment := Chalice.seed_comment_text
         created_at := "2024-01-01T00:00:05+00:00" }] ∧
    "alice" ≠ "support-team" := by
  refine ⟨rfl, by decide⟩

/-- C7 amended: both comment repositories insert exactly one acknowledgment
comment with a fixed text, but only the app.py variant attributes it to the
support-team sentinel; the chalicelib variant stores the requesting user id
as the author. -/
theorem c7_autoreply_author (comments : List CommentRow) (tid uid cid ts : String) :
    App.create_demo_comment comments tid uid cid ts =
      comments ++ [{ id := cid, ticket_id := tid, user_id := "support-team"
                     comment := App.demo_comment_text, created_at := ts }] ∧
    Chalice.seed_demo_comment comments tid uid cid ts =
      comments ++ [{ id := cid, ticket_id := tid, user_id := uid
                     comment := Chalice.seed_comment_text, created_at := ts }] :=
  ⟨rfl, rfl⟩

/-! ## Claim C8 -/

/-- C8 counterexample: the stored key keeps the filename verbatim, with no
removal of path separators, and the resulting write target can leave the
storage root: for the filename ../../../x the resolved path of the local
write escapes the uploads directory. -/
theorem c8_key_counterexample :
    Shared.unique_filename "u1" "../../../x" ≠ "u1" ++ "_" ++ specSanitized "../../../x" ∧
    escapesRootB "uploads" ("uploads/" ++ Shared.unique_filename "u1" "../../../x") = true ∧
    Chalice.storeKey "u1" "../../../../x" ≠
      "tickets/" ++ "u1" ++ "-" ++ specSanitized "../../../../x" := by
  refine ⟨by decide, by decide, by decide⟩

/-- C8 amended: both blob-store variants build the key from the fresh random
token and the original filename verbatim; no separator is removed, so a
filename containing a slash yields a key containing a slash. -/
theorem c8_key_uses_filename_verbatim (uuid4_ name : String) :
    Shared.unique_filename uuid4_ name = uuid4_ ++ "_" ++ name ∧
    Chalice.storeKey uuid4_ name = "tickets/" ++ uuid4_ ++ "-" ++ name ∧
    ('/' ∈ name.data → '/' ∈ (Shared.unique_filename uuid4_ name).data) := by
  refine ⟨rfl, rfl, fun h => ?_⟩
  show '/' ∈ (uuid4_ ++ "_" ++ name).data
  rw [String.data_append]
  exact List.mem_append_right _ h

/-- C8 witness: the amended theorem at a filename containing a separator. -/
theorem c8_key_uses_filename_verbatim_witness :
    Shared.unique_filename "u1" "a/b" = "u1" ++ "_" ++ "a/b" ∧
    Chalice.storeKey "u1" "a/b" = "tickets/" ++ "u1" ++ "-" ++ "a/b" ∧
    ('/' ∈ ("a/b" : String).data → '/' ∈ (Shared.unique_filename "u1" "a/b").data) :=
  c8_key_uses_filename_verbatim "u1" "a/b"

/-! ## Claim C9 -/

/-- C9 counterexample: a payload with all four required fields present and
non-empty is still rejected (unknown priority), so validation does not fail
exactly when a required field is absent or empty. -/
theorem c9_validation_counterexample :
    Chalice.missingFields urgentBody = [] ∧
    okB (Chalice.parse_ticket_payload urgentBody) = false := by
  refine ⟨rfl, by decide⟩

/-- C9 amended: schemas.py validation rejects a payload with missing required
fields naming each of them, accepts one with all four fields, an allowed
priority and no attachment, and additionally rejects unknown priorities and
malformed attachments; the inline app.py check reports only the generic
message Missing required fields. -/
theorem c9_validation (b : Chalice.RawBody) :
    (Chalice.missingFields b ≠ [] →
      Chalice.parse_ticket_payload b =
        .error ("Missing required field(s): " ++
          String.intercalate ", " (Chalice.missingFields b))) ∧
    (Chalice.missingFields b = [] →
      pyLower (b.priority.getD "") ∈ ["low", "medium", "high"] →
      b.attachment = none →
      Chalice.parse_ticket_payload b =
        .ok { subject := b.subject.getD "", priority := pyLower (b.priority.getD "")
              category := b.category.getD "", description := b.description.getD ""
              attachment := none, attachment_name := b.attachment_name
              attachment_type := b.attachment_type }) ∧
    (∀ (cfg : Shared.StorageCfg) (st : DbState) (req : CreateTicketRequest)
       (uid : String) (gen : GenValues),
      ¬ (strTruthy req.subject ∧ strTruthy req.priority ∧ strTruthy req.category ∧
          strTruthy req.description) →
      App.create_ticket_endpoint cfg st req uid gen =
        .error ⟨400, "Missing required fields"⟩) := by
  refine ⟨fun hm => ?_, fun hm hp ha => ?_, fun cfg st req uid gen h => ?_⟩
  · unfold Chalice.parse_ticket_payload
    rw [if_pos hm]
  · unfold Chalice.parse_ticket_payload
    rw [if_neg (not_not_intro hm), if_neg (not_not_intro hp), ha]
    simp [optTruthy]
  · unfold App.create_ticket_endpoint
    rw [if_pos h]

/-- C9 witness: the amended theorem at the payload missing the description
and at the fully valid payload. -/
theorem c9_validation_witness :
    Chalice.parse_ticket_payload missingDescBody =
      .error ("Missing required field(s): " ++
        String.intercalate ", " (Chalice.missingFields missingDescBody)) ∧
    Chalice.parse_ticket_payload goodBody =
      .ok { subject := goodBody.subject.getD ""
            priority := pyLower (goodBody.priority.getD "")
            category := goodBody.category.getD ""
            description := goodBody.description.getD ""
            attachment := none, attachment_name := goodBody.attachment_name
            attachment_type := goodBody.attachment_type } :=
  ⟨(c9_validation missingDescBody).1 (by decide),
   (c9_validation goodBody).2.1 rfl (by decide) rfl⟩

/-! ## Claim C10 -/

/-- Two strings with the same character data are equal. -/
theorem string_eq_of_data {a b : String} (h : a.data = b.data) : a = b := by
  cases a
  cases b
  exact congrArg String.mk h

/-- Decomposition of a comma-containing character list around its first comma. -/
theorem beforeAfterFirstComma_spec (l : List Char) (h : containsCommaL l = true) :
    l = beforeFirstCommaL l ++ ',' :: afterFirstCommaL l ∧
    containsCommaL (beforeFirstCommaL l) = false := by
  induction l with
  | nil => simp [containsCommaL] at h
  | cons c r ih =>
    by_cases hc : c = ','
    · subst hc
      simp [beforeFirstCommaL, afterFirstCommaL, containsCommaL]
    · have h' : containsCommaL r = true := by
        rw [containsCommaL, if_neg hc] at h
        exact h
      obtain ⟨ih1, ih2⟩ := ih h'
      constructor
      · rw [beforeFirstCommaL, afterFirstCommaL, if_neg hc, if_neg hc]
        exact congrArg (c :: ·) ih1
      · rw [beforeFirstCommaL, if_neg hc, containsCommaL, if_neg hc]
        exact ih2

/-- C10: StorageManager.upload_file decodes exactly the substring strictly
after the first comma when the attachment contains a comma (the discarded
prefix is arbitrary and comma-free), and the entire string otherwise. -/
theorem c10_first_comma_strip (s : String) (cfg : Shared.StorageCfg) (name tok : String) :
    (containsComma s = true →
      s = beforeFirstComma s ++ "," ++ afterFirstComma s ∧
      containsComma (beforeFirstComma s) = false ∧
      Shared.upload_file cfg s name tok = Shared.upload_body cfg (afterFirstComma s) name tok) ∧
    (containsComma s = false →
      Shared.upload_file cfg s name tok = Shared.upload_body cfg s name tok) := by
  constructor
  · intro h
    obtain ⟨h1, h2⟩ := beforeAfterFirstComma_spec s.data h
    refine ⟨?_, h2, ?_⟩
    · refine string_eq_of_data ?_
      rw [String.data_append, String.data_append, List.append_assoc]
      exact h1
    · unfold Shared.upload_file Shared.strippedPayload
      rw [if_pos h]
  · intro h
    unfold Shared.upload_file Shared.strippedPayload
    rw [if_neg (by simp [h])]

/-- C10 witness: the decomposition at a data URI. -/
theorem c10_first_comma_strip_witness :
    dataUri = beforeFirstComma dataUri ++ "," ++ afterFirstComma dataUri ∧
    containsComma (beforeFirstComma dataUri) = false ∧
    Shared.upload_file tinyCfg dataUri "f.png" "u" =
      Shared.upload_body tinyCfg (afterFirstComma dataUri) "f.png" "u" :=
  (c10_first_comma_strip dataUri tinyCfg "f.png" "u").1 (by decide)

/-- C2 witness for the amended theorem, at user u1. -/
theorem c2_app_metrics_witness :
    App.get_dashboard_metrics fourStatusTable (some "u1") =
      { total := fourStatusTable.countP (fun t => t.user_id = "u1")
        open_tickets := fourStatusTable.countP (fun t =>
          t.user_id = "u1" ∧ (t.status = "open" ∨ t.status = "in_progress"))
        resolved := fourStatusTable.countP (fun t =>
          t.user_id = "u1" ∧ (t.status = "resolved" ∨ t.status = "closed")) } ∧
    App.get_dashboard_metrics fourStatusTable (some "u1") =
      { total := 4, open_tickets := 2, resolved := 2 } :=
  c2_app_metrics fourStatusTable "u1" (by decide)

/-! ## Claim C5 -/

/-- C5: creating a ticket (with a fresh generated id, at a clock reading taken
during the call, hence no earlier than the call start) and fetching it by the
returned id and the same owner yields exactly the created record; its status
is the literal open, and its created_at is the isoformat rendering of the
creation instant: it parses back as a valid aware UTC ISO-8601 timestamp
denoting that instant, and under the stored byte order it never compares
before the rendering of the call start. -/
theorem c5_create_then_get (tickets : List Ticket)
    (subject priority category description user_id : String)
    (attachment_url : Option String) (ticket_id : String) (startMicros nowMicros : Nat)
    (hfresh : ∀ t ∈ tickets, t.id ≠ ticket_id)
    (huser : user_id ≠ "")
    (hstart : startMicros ≤ nowMicros)
    (hnow : nowMicros < pyMaxMicros) :
    App.get_ticket (App.create_ticket tickets subject priority category description user_id
        attachment_url ticket_id (isoFromMicros nowMicros)).1 ticket_id (some user_id) =
      some (App.create_ticket tickets subject priority category description user_id
        attachment_url ticket_id (isoFromMicros nowMicros)).2 ∧
    (App.create_ticket tickets subject priority category description user_id
        attachment_url ticket_id (isoFromMicros nowMicros)).2 =
      { id := ticket_id, subject := subject, priority := priority, category := category
        description := description, status := "open", user_id := user_id
        created_at := isoFromMicros nowMicros, attachment_url := attachment_url } ∧
    parseIsoUtc (isoFromMicros nowMicros) = some (dtFromMicros nowMicros) ∧
    isValidIsoUtc (isoFromMicros nowMicros) = true ∧
    createdLt (isoFromMicros nowMicros) (isoFromMicros startMicros) = false := by
  refine ⟨?_, rfl, parse_iso_roundtrip nowMicros hnow, isValid_iso nowMicros hnow,
    createdLt_iso_false hstart hnow⟩
  unfold App.create_ticket App.get_ticket
  dsimp only
  rw [List.find?_append]
  have hnone : tickets.find? (fun t =>
      t.id = ticket_id && (if optTruthy (some user_id) then t.user_id = (some user_id).getD ""
        else true)) = none := by
    rw [List.find?_eq_none]
    intro t ht
    simp only [Bool.and_eq_true, decide_eq_true_eq]
    intro hcontra
    exact hfresh t ht hcontra.1
  rw [hnone]
  have htr : optTruthy (some user_id) = true := by
    simp [optTruthy, strTruthy, huser]
  simp [htr]

/-- C5 witness: a concrete create-then-fetch round trip one day after the
epoch. -/
theorem c5_create_then_get_witness :
    App.get_ticket (App.create_ticket [] "s" "low" "c" "d" "u1"
        none "t1" (isoFromMicros 86400000000)).1 "t1" (some "u1") =
      some (App.create_ticket [] "s" "low" "c" "d" "u1"
        none "t1" (isoFromMicros 86400000000)).2 ∧
    (App.create_ticket [] "s" "low" "c" "d" "u1"
        none "t1" (isoFromMicros 86400000000)).2 =
      { id := "t1", subject := "s", priority := "low", category := "c"
        description := "d", status := "open", user_id := "u1"
        created_at := isoFromMicros 86400000000, attachment_url := none } ∧
    parseIsoUtc (isoFromMicros 86400000000) = some (dtFromMicros 86400000000) ∧
    isValidIsoUtc (isoFromMicros 86400000000) = true ∧
    createdLt (isoFromMicros 86400000000) (isoFromMicros 0) = false :=
  c5_create_then_get [] "s" "low" "c" "d" "u1" none "t1" 0 86400000000
    (by intro t ht; exact absurd ht (List.not_mem_nil t)) (by decide) (by omega) (by decide)

/-! ## Claim C6 -/

/-- C6: listByUser returns exactly the tickets of the user (a permutation of
the owner-filtered table, the empty list when the user has none), in weakly
descending byte order of created_at; when the creation instants of the user
tickets are pairwise distinct (tickets created in sequence), the result is
ordered strictly by descending creation time.  The chalicelib list_by_user
variant computes the same function. -/
theorem c6_list_by_user (tickets : List Ticket) (u : String) (times : Ticket → Nat)
    (htimes : ∀ t ∈ tickets, t.user_id = u →
      t.created_at = isoFromMicros (times t) ∧ times t < pyMaxMicros)
    (hdist : (tickets.filter (fun t => t.user_id = u)).Pairwise
      (fun a b => times a ≠ times b)) :
    (App.get_my_tickets tickets u).Perm (tickets.filter (fun t => t.user_id = u)) ∧
    (App.get_my_tickets tickets u).Pairwise
      (fun a b => createdLt a.created_at b.created_at = false) ∧
    (App.get_my_tickets tickets u).Pairwise (fun a b => times b < times a) ∧
    (tickets.filter (fun t => t.user_id = u) = [] → App.get_my_tickets tickets u = []) ∧
    App.get_my_tickets tickets u = Chalice.list_by_user tickets u := by
  have hperm : (App.get_my_tickets tickets u).Perm
      (tickets.filter (fun t => t.user_id = u)) := orderByCreatedDesc_perm _
  have hweak : (App.get_my_tickets tickets u).Pairwise
      (fun a b => createdLt a.created_at b.created_at = false) :=
    orderByCreatedDesc_pairwise _
  have hmem : ∀ x ∈ App.get_my_tickets tickets u,
      x.created_at = isoFromMicros (times x) ∧ times x < pyMaxMicros := by
    intro x hx
    have hx' := hperm.subset hx
    have hx'' := List.mem_filter.mp hx'
    exact htimes x hx''.1 (by simpa using hx''.2)
  have hdist' : (App.get_my_tickets tickets u).Pairwise (fun a b => times a ≠ times b) :=
    (hperm.pairwise_iff (fun h => Ne.symm h)).mpr hdist
  refine ⟨hperm, hweak, ?_, ?_, rfl⟩
  · refine (hweak.and hdist').imp_of_mem ?_
    intro a b ha hb hab
    obtain ⟨hca, hta⟩ := hmem a ha
    obtain ⟨hcb, htb⟩ := hmem b hb
    obtain ⟨hle, hne⟩ := hab
    rcases Nat.lt_trichotomy (times a) (times b) with hlt | heq | hgt
    · have := createdLt_iso hlt htb
      rw [← hca, ← hcb] at this
      rw [this] at hle
      exact absurd hle (by simp)
    · exact absurd heq hne
    · exact hgt
  · intro hempty
    unfold App.get_my_tickets
    rw [hempty]
    rfl

/-- C6 witness: two tickets of the same user created one day apart, stored
oldest first, are returned newest first. -/
theorem c6_list_by_user_witness :
    (App.get_my_tickets c6Table "u2").Perm (c6Table.filter (fun t => t.user_id = "u2")) ∧
    (App.get_my_tickets c6Table "u2").Pairwise
      (fun a b => createdLt a.created_at b.created_at = false) ∧
    (App.get_my_tickets c6Table "u2").Pairwise (fun a b => c6Times b < c6Times a) ∧
    (c6Table.filter (fun t => t.user_id = "u2") = [] → App.get_my_tickets c6Table "u2" = []) ∧
    App.get_my_tickets c6Table "u2" = Chalice.list_by_user c6Table "u2" :=
  c6_list_by_user c6Table "u2" c6Times (by decide) (by decide)

end SupportPortal
